import Mathlib

/-!
Shallow embedding of the CodeInsight-CLI explanation core
(`src/core/explainer.py`, `src/models/models.py`, `src/providers/*.py`,
`src/config.py`) and proofs about it.

Python floats are modelled as rationals, machine time (`time.time()` /
`datetime.now()`) as an explicit clock threaded through each call that
advances by one per probe, and the external LLM backends as per-provider
behaviours (availability bit, the stream of chunks the backend would
deliver, an optional exception raised while iterating that stream, and the
outcome of a structured-generation request).  `hashlib.sha256(...).hexdigest()`
is modelled as an abstract function `sha256hex : String → String`; the spec's
"hash collisions have probability zero" convention corresponds to assuming
that function injective.  Fallible Python code returns `Except`.
-/

namespace CodeInsight

/-- Python truthiness of an `Optional[float]`: `None` and `0.0` are falsy. -/
def pyTruthyQ : Option ℚ → Bool
  | none => false
  | some x => decide (x ≠ 0)

/-- Python truthiness of an `Optional[int]`: `None` and `0` are falsy. -/
def pyTruthyN : Option ℕ → Bool
  | none => false
  | some n => decide (n ≠ 0)

/-- Python `str.strip()`: drop leading and trailing whitespace. -/
def pyStrip (s : String) : String :=
  ⟨(((s.data.dropWhile Char.isWhitespace).reverse.dropWhile Char.isWhitespace).reverse)⟩

/-- Python `s.lower()` (character-wise, as for the ASCII error texts). -/
def pyLower (s : String) : String :=
  ⟨s.data.map Char.toLower⟩

/-- Python substring test `pat in s`. -/
def strContains (s pat : String) : Bool :=
  s.data.tails.any (fun t => pat.data.isPrefixOf t)

/-- `models.py` `PerformanceMetrics` dataclass. -/
structure PerformanceMetrics where
  model : String
  model_provider : String
  start_time : ℚ
  end_time : Option ℚ := none
  time_to_first_token : Option ℚ := none
  total_tokens : Option ℕ := none
  error : Option String := none
  cache_hit : Bool := false
deriving Repr, DecidableEq

/-- `PerformanceMetrics.total_time` property:
`if self.end_time: return self.end_time - self.start_time; return None`
(note the Python truthiness test on the optional float). -/
def PerformanceMetrics.total_time (m : PerformanceMetrics) : Option ℚ :=
  if pyTruthyQ m.end_time then some (m.end_time.getD 0 - m.start_time) else none

/-- `PerformanceMetrics.tokens_per_second` property:
`if self.end_time and self.time_to_first_token and self.total_tokens:` then
tokens divided by the generation window when that window is positive,
otherwise `None`. -/
def PerformanceMetrics.tokens_per_second (m : PerformanceMetrics) : Option ℚ :=
  if pyTruthyQ m.end_time ∧ pyTruthyQ m.time_to_first_token ∧ pyTruthyN m.total_tokens then
    let first_token_time := m.start_time + m.time_to_first_token.getD 0
    let generation_time := m.end_time.getD 0 - first_token_time
    if generation_time > 0 then some ((m.total_tokens.getD 0 : ℚ) / generation_time)
    else none
  else none

/-- `models.py` `ExplanationResult` dataclass (`timestamp` is `datetime.now()`
at construction, drawn from the modelled clock). -/
structure ExplanationResult where
  original_code : String
  explanation : String
  metrics : PerformanceMetrics
  timestamp : ℚ
deriving Repr, DecidableEq

/-- `models.py` `ValidationResult` pydantic model. -/
structure ValidationResult where
  is_valid : Bool
  reason : String
  confidence : ℚ := 4/5
deriving Repr, DecidableEq

/-- `config.py` `Settings` dataclass (defaults as in the source; the
Gemini API key comes from the environment and defaults to `""`). -/
structure Settings where
  gemini_api_key : String := ""
  default_provider : String := "gemini"
  gemini_model : String := "gemini-2.5-flash"
  ollama_model : String := "llama3.2:1b"
  cache_enabled : Bool := true
  cache_dir : String := ".cache"
  cache_ttl : ℕ := 604800
  min_code_length : ℕ := 10
  max_code_length : ℕ := 100000
  validation_sample_size : ℕ := 1000
  explanation_temperature : ℚ := 7/10
  explanation_max_tokens : ℕ := 8192
  validation_temperature : ℚ := 3/10
  validation_max_tokens : ℕ := 512
  log_level : String := "INFO"

/-- The module-level `settings = Settings()` instance. -/
def settings : Settings := {}

/-! ## Observable events of one `explain` call

The trace records the effectful steps the Python code performs: a
structured-generation request issued by the validator, the start of a
provider `explain_code` call, a fragment delivered by the backend stream,
a `stream_callback` invocation, and cache reads/writes. -/

inductive Event where
  | structuredCall (provider : String)
  | genCall (provider : String)
  | fragmentReceived (content : String)
  | chunk (content : String)
  | cacheRead (key : String)
  | cacheWrite (key : String)
deriving Repr, DecidableEq

def isGenCallEv : Event → Bool
  | .genCall _ => true
  | _ => false

def isChunkEv : Event → Bool
  | .chunk _ => true
  | _ => false

def isCacheWriteEv : Event → Bool
  | .cacheWrite _ => true
  | _ => false

def isStructuredEv : Event → Bool
  | .structuredCall _ => true
  | _ => false

/-! ## Providers (`providers/base.py`, `providers/gemini.py`, `providers/ollama.py`) -/

/-- One chunk delivered by a backend stream.  For Ollama this carries
`message.content`, the `done` flag and the token counts of the final chunk;
for Gemini it carries `chunk.text` and (on the final chunk) the
`usage_metadata.total_token_count`. -/
structure StreamChunk where
  content : String
  done : Bool := false
  prompt_eval_count : ℕ := 0
  eval_count : ℕ := 0
  usage_total : Option ℕ := none
deriving Repr, DecidableEq

/-- The modelled behaviour of the external backend behind one provider:
whether it is reachable, the chunks its stream would deliver, an optional
exception text raised while iterating the stream (after the listed chunks
were delivered), and the outcome of a structured-generation request
(already wrapped the way `generate_structured` wraps it). -/
structure ProviderBehavior where
  available : Bool
  chunks : List StreamChunk := []
  streamTail : Option String := none
  structuredResult : Except String ValidationResult := .error ""

inductive ProviderKind where
  | gemini
  | ollama
deriving Repr, DecidableEq

/-- A provider instance: `BaseProvider.__init__` stores `api_key` and
`model`; the concrete class fixes the kind. -/
structure Provider where
  kind : ProviderKind
  api_key : String
  model : String
  behavior : ProviderBehavior

/-- The `name` property: a constant per concrete class. -/
def Provider.name (p : Provider) : String :=
  match p.kind with
  | .gemini => "gemini"
  | .ollama => "ollama"

/-- `is_available`: the base class tests the API key
(`bool(self.api_key and len(self.api_key) > 0)`, used by Gemini); Ollama
overrides it with a liveness probe whose (memoized) outcome is the
behaviour's `available` bit. -/
def Provider.is_available (p : Provider) : Bool :=
  match p.kind with
  | .gemini => p.api_key ≠ ""
  | .ollama => p.behavior.available

/-- `ollama.py` lines 127-144: classify the text of an exception raised
during generation. -/
def classifyOllamaError (model e : String) : String :=
  let m := pyLower e
  if strContains m "connection" ∨ strContains m "refused" ∨ strContains m "unreachable" then
    "Cannot connect to Ollama server. Is it running? Try: ollama serve"
  else if strContains m "model" ∧ (strContains m "not found" ∨ strContains m "pull") then
    "Ollama model \x27" ++ model ++ "\x27 not found. Try: ollama pull " ++ model
  else if strContains m "timeout" ∨ strContains m "timed out" then
    "Ollama request timed out: " ++ e
  else
    "Ollama error: " ++ e

/-- `gemini.py` lines 123-144: classify the text of an exception raised
during generation. -/
def classifyGeminiError (model e : String) : String :=
  let m := pyLower e
  if strContains m "quota" ∨ strContains m "rate limit" ∨ strContains m "429" then
    "Gemini rate limit exceeded: " ++ e
  else if strContains m "timeout" ∨ strContains m "timed out" then
    "Gemini API timeout: " ++ e
  else if strContains m "not found" ∨ strContains m "invalid model" ∨ strContains m "404" then
    "Gemini model \x27" ++ model ++ "\x27 not available: " ++ e
  else if strContains m "unauthorized" ∨ strContains m "invalid api key" ∨
      strContains m "401" ∨ strContains m "403" then
    "Gemini authentication failed. Check your GEMINI_API_KEY: " ++ e
  else
    "Gemini API error: " ++ e

/-- The `for chunk in stream:` loop shared (line for line) by
`OllamaProvider._invoke_model` and `GeminiProvider._invoke_model`:
track time-to-first-token at the first non-empty fragment, accumulate the
explanation, forward each non-empty fragment to the callback before the
next chunk is requested, and apply the provider-specific per-chunk token
update `tok` (Ollama reads the counters off `done` chunks; Gemini does
nothing per chunk and reads usage off the final chunk afterwards). -/
def streamLoop (hasCb : Bool) (tok : StreamChunk → PerformanceMetrics → PerformanceMetrics) :
    List StreamChunk → Bool → String → PerformanceMetrics → List Event → ℚ →
    String × PerformanceMetrics × List Event × ℚ
  | [], _, expl, m, ev, c => (expl, m, ev, c)
  | ch :: rest, firstSeen, expl, m, ev, c =>
      let ev := ev ++ [Event.fragmentReceived ch.content]
      let (firstSeen, m, c) :=
        if ¬ firstSeen ∧ ch.content ≠ "" then
          (true, { m with time_to_first_token := some (c - m.start_time) }, c + 1)
        else (firstSeen, m, c)
      let (expl, ev) :=
        if ch.content ≠ "" then
          (expl ++ ch.content, ev ++ (if hasCb then [Event.chunk ch.content] else []))
        else (expl, ev)
      let m := tok ch m
      streamLoop hasCb tok rest firstSeen expl m ev c

/-- Ollama token accounting (`ollama.py` lines 117-120): on a `done` chunk,
`total_tokens := prompt_eval_count + eval_count`. -/
def ollamaTok (ch : StreamChunk) (m : PerformanceMetrics) : PerformanceMetrics :=
  if ch.done then { m with total_tokens := some (ch.prompt_eval_count + ch.eval_count) } else m

/-- `OllamaProvider._invoke_model`: run the stream loop; if the backend
raised while iterating, classify that exception; otherwise, if no text was
produced, the `ProviderError("Ollama returned empty response")` raised in
the `try` block is caught and re-classified by the same handler. -/
def ollamaInvokeModel (p : Provider) (m : PerformanceMetrics) (hasCb : Bool) (c : ℚ) :
    Except String String × PerformanceMetrics × List Event × ℚ :=
  let (expl, m, ev, c) := streamLoop hasCb ollamaTok p.behavior.chunks false "" m [] c
  match p.behavior.streamTail with
  | some e => (.error (classifyOllamaError p.model e), m, ev, c)
  | none =>
      if expl = "" then (.error (classifyOllamaError p.model "Ollama returned empty response"), m, ev, c)
      else (.ok expl, m, ev, c)

/-- `GeminiProvider._invoke_model`: same stream loop; token usage is read
off the final chunk after the loop (skipped when the stream raised), and an
empty result raises `ProviderError("Gemini returned empty response")`,
caught and classified by the same handler. -/
def geminiInvokeModel (p : Provider) (m : PerformanceMetrics) (hasCb : Bool) (c : ℚ) :
    Except String String × PerformanceMetrics × List Event × ℚ :=
  let (expl, m, ev, c) := streamLoop hasCb (fun _ m => m) p.behavior.chunks false "" m [] c
  match p.behavior.streamTail with
  | some e => (.error (classifyGeminiError p.model e), m, ev, c)
  | none =>
      let m :=
        match p.behavior.chunks.getLast? with
        | some ch =>
            match ch.usage_total with
            | some t => { m with total_tokens := some t }
            | none => m
        | none => m
      if expl = "" then (.error (classifyGeminiError p.model "Gemini returned empty response"), m, ev, c)
      else (.ok expl, m, ev, c)

def Provider.invokeModel (p : Provider) (m : PerformanceMetrics) (hasCb : Bool) (c : ℚ) :
    Except String String × PerformanceMetrics × List Event × ℚ :=
  match p.kind with
  | .ollama => ollamaInvokeModel p m hasCb c
  | .gemini => geminiInvokeModel p m hasCb c

/-- `BaseProvider.explain_code`: stamp the metrics with this provider's
model and name, invoke the model, return the stripped explanation; on
failure record the error text into the metrics and re-raise. -/
def Provider.explain_code (p : Provider) (m : PerformanceMetrics) (hasCb : Bool) (c : ℚ) :
    Except String String × PerformanceMetrics × List Event × ℚ :=
  let m := { m with model := p.model, model_provider := p.name }
  match p.invokeModel m hasCb c with
  | (.ok s, m, ev, c) => (.ok (pyStrip s), m, ev, c)
  | (.error e, m, ev, c) => (.error e, { m with error := some e }, ev, c)

/-! ## The explainer (`core/explainer.py`) -/

/-- The disk cache (`diskcache.Cache`): a key-value store holding a value
together with its absolute expiry time.  `get` returns the value only while
unexpired; `set(key, value, expire=ttl)` stores expiry `now + ttl` and
overwrites any previous entry for the key. -/
def CacheStore := String → Option (ExplanationResult × ℚ)

def cacheGet (c : CacheStore) (k : String) (now : ℚ) : Option ExplanationResult :=
  match c k with
  | some (v, exp) => if now < exp then some v else none
  | none => none

def cacheSet (c : CacheStore) (k : String) (v : ExplanationResult) (exp : ℚ) : CacheStore :=
  fun k' => if k' = k then some (v, exp) else c k'

/-- Mutable world threaded through one `explain` call: the disk cache and
the clock sampled by `time.time()` / `datetime.now()` (each sample returns
the current value and advances the clock by one). -/
structure St where
  cache : CacheStore
  clock : ℚ

/-- The fixed environment of a `CodeExplainer`: the settings, the SHA-256
hex digest function (abstract), and the behaviour of the two backends. -/
structure Env where
  settings : Settings
  sha256hex : String → String
  geminiBehavior : ProviderBehavior
  ollamaBehavior : ProviderBehavior

/-- `GeminiProvider(model=settings.gemini_model)` as registered in
`CodeExplainer.__init__` (the API key auto-loads from settings). -/
def Env.gemini (env : Env) : Provider :=
  { kind := .gemini, api_key := env.settings.gemini_api_key,
    model := env.settings.gemini_model, behavior := env.geminiBehavior }

/-- `OllamaProvider(model=settings.ollama_model)` (`api_key="local"`). -/
def Env.ollama (env : Env) : Provider :=
  { kind := .ollama, api_key := "local",
    model := env.settings.ollama_model, behavior := env.ollamaBehavior }

/-- The `self.providers` dict (insertion order `gemini`, `ollama`). -/
def Env.getProviderByName (env : Env) (n : String) : Option Provider :=
  if n = "gemini" then some env.gemini
  else if n = "ollama" then some env.ollama
  else none

/-- `provider_name or self.default_provider` (Python `or`: `None` and the
empty string both fall through to the default). -/
def resolveName (env : Env) (pn : Option String) : String :=
  match pn with
  | none => env.settings.default_provider
  | some s => if s = "" then env.settings.default_provider else s

/-- `CodeExplainer._get_provider`. -/
def get_provider (env : Env) (pn : Option String) : Except String Provider :=
  let name := resolveName env pn
  match env.getProviderByName name with
  | none => .error ("Unknown provider: " ++ name)
  | some p =>
      if p.is_available then .ok p
      else .error ("Provider " ++ name ++ " is not available (missing API key)")

/-- `CodeExplainer._get_fallback_provider`: the other provider, if
available. -/
def get_fallback_provider (env : Env) (failed : String) : Option Provider :=
  let fallbackName := if failed = "gemini" then "ollama" else "gemini"
  match env.getProviderByName fallbackName with
  | some p => if p.is_available then some p else none
  | none => none

/-- The input string hashed by `CodeExplainer._get_cache_key`:
`f"{code}|{provider_name}|{model}"`. -/
def cacheKeyInput (code provider_name model : String) : String :=
  code ++ "|" ++ provider_name ++ "|" ++ model

/-- `CodeExplainer._get_cache_key`, with the digest abstract. -/
def get_cache_key (sha256hex : String → String) (code provider_name model : String) : String :=
  sha256hex (cacheKeyInput code provider_name model)

/-- The `for provider_name in ["ollama", "gemini"]:` loop of
`CodeExplainer._validate_input_code`: skip unregistered/unavailable
providers, return the first structured answer verbatim, collect
`f"{provider_name}: {str(e)}"` for each failure.  (The validation prompt
built from the truncated code sample does not influence the modelled
outcome, so it is not materialized.)  When every candidate failed, fail
open with confidence 0.5 and the joined error list. -/
def validationLoop (env : Env) : List String → List String → List Event →
    ValidationResult × List Event
  | [], errs, ev =>
      ({ is_valid := true,
         reason := "Validation check skipped due to errors: " ++ String.intercalate "; " errs,
         confidence := 1/2 }, ev)
  | n :: rest, errs, ev =>
      match env.getProviderByName n with
      | none => validationLoop env rest errs ev
      | some p =>
          if p.is_available then
            let ev := ev ++ [Event.structuredCall n]
            match p.behavior.structuredResult with
            | .ok r => (r, ev)
            | .error e => validationLoop env rest (errs ++ [n ++ ": " ++ e]) ev
          else validationLoop env rest errs ev

/-- `CodeExplainer._validate_input_code`. -/
def validateInputCode (env : Env) (code : String) : ValidationResult × List Event :=
  if (pyStrip code).length < env.settings.min_code_length then
    let minLen := env.settings.min_code_length
    ({ is_valid := false,
       reason := "Code is too short (minimum " ++ toString minLen ++ " characters)",
       confidence := 1 }, [])
  else if code.length > env.settings.max_code_length then
    let maxKB := env.settings.max_code_length / 1000
    ({ is_valid := false,
       reason := "Code is too large (maximum " ++ toString maxKB ++ "KB)",
       confidence := 1 }, [])
  else validationLoop env ["ollama", "gemini"] [] []

/-- Step 2 of `explain`: `self._get_provider(provider_name)` with the
`except ValueError` fallback substitution. -/
def resolveActiveProvider (env : Env) (pn : Option String) (auto_fallback : Bool) :
    Except String Provider :=
  match get_provider env pn with
  | .ok p => .ok p
  | .error e =>
      if auto_fallback then
        match get_fallback_provider env (resolveName env pn) with
        | some p => .ok p
        | none => .error "No ML providers are available"
      else .error e

abbrev ExplainOut := Except String ExplanationResult × St × List Event

/-- Steps 4-6 of `explain` (cache miss): fresh metrics with
`start_time = time.time()`, the provider call, on success the cache write
(guarded by `if self.use_cache and cache_key:`, where an empty key string
is falsy) and on failure the end-time/error stamping followed by the
`auto_fallback` retry, expressed through the `retry` continuation
(`retry originalError fallbackName state`). -/
def explainMissPath (env : Env) (code : String) (auto_fallback hasCb : Bool)
    (provider : Provider) (key : Option String) (st : St) (ev0 : List Event)
    (retry : String → String → St → ExplainOut) : ExplainOut :=
  let start := st.clock
  let st : St := ⟨st.cache, st.clock + 1⟩
  let metrics : PerformanceMetrics :=
    { model := provider.model, model_provider := provider.name, start_time := start }
  match provider.explain_code metrics hasCb st.clock with
  | (.ok expl, m, gev, c) =>
      let endT := c
      let c := c + 1
      let m := { m with end_time := some endT }
      let ts := c
      let c := c + 1
      let result : ExplanationResult :=
        { original_code := code, explanation := expl, metrics := m, timestamp := ts }
      match key with
      | some k =>
          if k ≠ "" then
            (.ok result,
             ⟨cacheSet st.cache k result (c + (env.settings.cache_ttl : ℚ)), c⟩,
             ev0 ++ [Event.genCall provider.name] ++ gev ++ [Event.cacheWrite k])
          else (.ok result, ⟨st.cache, c⟩, ev0 ++ [Event.genCall provider.name] ++ gev)
      | none => (.ok result, ⟨st.cache, c⟩, ev0 ++ [Event.genCall provider.name] ++ gev)
  | (.error e, _m, gev, c) =>
      let c := c + 1
      if auto_fallback then
        match get_fallback_provider env provider.name with
        | some fp =>
            let out := retry e fp.name ⟨st.cache, c⟩
            (out.1, out.2.1, ev0 ++ [Event.genCall provider.name] ++ gev ++ out.2.2)
        | none => (.error e, ⟨st.cache, c⟩, ev0 ++ [Event.genCall provider.name] ++ gev)
      else (.error e, ⟨st.cache, c⟩, ev0 ++ [Event.genCall provider.name] ++ gev)

/-- Steps 2-6 of `explain`: provider resolution (with availability
fallback), cache probe (hit: re-stamp the metrics to the probe window,
replay the cached explanation through the callback once, return), then the
miss path.  `vev` is the event trace accumulated by step 1. -/
def explainAfterValidation (env : Env) (code : String) (pn : Option String)
    (auto_fallback hasCb : Bool) (st : St) (vev : List Event)
    (retry : String → String → St → ExplainOut) : ExplainOut :=
  match resolveActiveProvider env pn auto_fallback with
  | .error e => (.error e, st, vev)
  | .ok provider =>
      if env.settings.cache_enabled then
        let k := get_cache_key env.sha256hex code provider.name provider.model
        let cache_start := st.clock
        let st1 : St := ⟨st.cache, st.clock + 1⟩
        match cacheGet st.cache k cache_start with
        | some cached =>
            let cm := { cached.metrics with cache_hit := true, start_time := cache_start, end_time := some st1.clock }
            let res := { cached with metrics := cm }
            (.ok res, ⟨st1.cache, st1.clock + 1⟩,
             vev ++ [Event.cacheRead k] ++ (if hasCb then [Event.chunk res.explanation] else []))
        | none =>
            explainMissPath env code auto_fallback hasCb provider (some k) st1
              (vev ++ [Event.cacheRead k]) retry
      else explainMissPath env code auto_fallback hasCb provider none st vev retry

/-- The body of `CodeExplainer.explain`, with the recursive retry call
abstracted into the continuation `retry`: step 1 (input validation)
followed by `explainAfterValidation`. -/
def explainBody (env : Env) (code : String) (pn : Option String)
    (auto_fallback hasCb validate_input : Bool) (st : St)
    (retry : String → String → St → ExplainOut) : ExplainOut :=
  let vr := validateInputCode env code
  if validate_input ∧ ¬ vr.1.is_valid then
    (.error ("Input validation failed: " ++ vr.1.reason), st, vr.2)
  else
    explainAfterValidation env code pn auto_fallback hasCb st
      (if validate_input then vr.2 else []) retry

/-- `explain` with an explicit retry budget making the source's bounded
recursion (`auto_fallback` forced from true to false on the single
recursive call) structural.  At budget zero the continuation propagates
the original exception, which is unreachable from `explainFn` because the
retried call carries `auto_fallback = false` and never consults it. -/
def explainGo (env : Env) (code : String) (pn : Option String)
    (auto_fallback hasCb validate_input : Bool) (st : St) : ℕ → ExplainOut
  | 0 =>
      explainBody env code pn auto_fallback hasCb validate_input st
        (fun e _ st' => (.error e, st', []))
  | n + 1 =>
      explainBody env code pn auto_fallback hasCb validate_input st
        (fun _ name st' => explainGo env code (some name) false hasCb false st' n)

/-- `CodeExplainer.explain(code, provider_name, auto_fallback,
stream_callback, validate_input)`.  The callback is modelled by the flag
`hasCb`; its invocations are the `Event.chunk` entries of the trace. -/
def explainFn (env : Env) (code : String) (pn : Option String)
    (auto_fallback hasCb validate_input : Bool) (st : St) : ExplainOut :=
  explainGo env code pn auto_fallback hasCb validate_input st 1

/-- `CodeExplainer.list_available_providers` (registration order). -/
def list_available_providers (env : Env) : List String :=
  (["gemini", "ollama"].filter fun n =>
    match env.getProviderByName n with
    | some p => p.is_available
    | none => false)

/-! ## Derived notions used in the statements -/

/-- Number of provider generation attempts recorded in a trace. -/
def countGen (evs : List Event) : ℕ := (evs.filter isGenCallEv).length

/-- Concatenation of all fragments of a stream. -/
def joinedContents : List StreamChunk → String
  | [] => ""
  | ch :: rest => ch.content ++ joinedContents rest

/-- The trace the stream loop produces: each fragment is received from the
backend and, when non-empty and a callback is installed, forwarded to the
sink before the next fragment is requested. -/
def chunkTrace (hasCb : Bool) : List StreamChunk → List Event
  | [] => []
  | ch :: rest =>
      [Event.fragmentReceived ch.content] ++
      (if ch.content ≠ "" ∧ hasCb then [Event.chunk ch.content] else []) ++
      chunkTrace hasCb rest

/-- The outcome of `_invoke_model` as determined by the backend behaviour
alone (it does not depend on the metrics, callback or clock arguments). -/
def invokeOutcome (p : Provider) : Except String String :=
  match p.behavior.streamTail with
  | some e =>
      .error (match p.kind with
              | .ollama => classifyOllamaError p.model e
              | .gemini => classifyGeminiError p.model e)
  | none =>
      if joinedContents p.behavior.chunks = "" then
        .error (match p.kind with
                | .ollama => classifyOllamaError p.model "Ollama returned empty response"
                | .gemini => classifyGeminiError p.model "Gemini returned empty response")
      else .ok (joinedContents p.behavior.chunks)

/-- The outcome of `explain_code` as determined by the backend behaviour
alone. -/
def genOutcome (p : Provider) : Except String String :=
  match invokeOutcome p with
  | .ok s => .ok (pyStrip s)
  | .error e => .error e

/-- Default environment for concrete instantiations: the stock settings,
the identity in place of the (injective) hex digest, and unreachable
backends. -/
def baseEnv : Env :=
  { settings := settings, sha256hex := id,
    geminiBehavior := { available := false },
    ollamaBehavior := { available := false } }

/-- The spec's two-fragment example stream, served by an Ollama provider. -/
def helloChunk1 : StreamChunk := { content := "Hello" }

def helloChunk2 : StreamChunk :=
  { content := " world", done := true, prompt_eval_count := 5, eval_count := 15 }

def helloProvider : Provider :=
  { kind := .ollama, api_key := "local", model := "llama3.2:1b",
    behavior := { available := true, chunks := [helloChunk1, helloChunk2] } }

def helloMetrics : PerformanceMetrics :=
  { model := "llama3.2:1b", model_provider := "ollama", start_time := 0 }

/-- Environment in which both providers are reachable but both
structured-generation validators fail. -/
def bothFailEnv : Env :=
  { settings := { gemini_api_key := "k" }, sha256hex := id,
    geminiBehavior :=
      { available := true,
        structuredResult := .error "Gemini structured generation error: boom" },
    ollamaBehavior :=
      { available := true,
        structuredResult := .error "Ollama structured generation error: down" } }

/-- Environment with a Gemini key (so Gemini resolves) and unreachable
backends otherwise. -/
def hitEnv : Env :=
  { settings := { gemini_api_key := "k" }, sha256hex := id,
    geminiBehavior := { available := false },
    ollamaBehavior := { available := false } }

/-- A previously cached explanation result. -/
def cachedRes : ExplanationResult :=
  { original_code := "def add(a, b): return a + b", explanation := "adds two numbers",
    metrics := { model := "gemini-2.5-flash", model_provider := "gemini", start_time := 100, end_time := some 101 },
    timestamp := 100 }

def hitKey : String :=
  get_cache_key id "def add(a, b): return a + b" "gemini" "gemini-2.5-flash"

/-- A cache store holding `cachedRes` under `hitKey` until time 1000. -/
def hitStore : CacheStore :=
  fun k => if k = hitKey then some (cachedRes, 1000) else none

/-- Environment where Gemini is configured (key present) but its stream
raises, while Ollama is up and serves the two example fragments; caching
disabled. -/
def failEnv : Env :=
  { settings := { gemini_api_key := "k", cache_enabled := false }, sha256hex := id,
    geminiBehavior := { available := true, streamTail := some "boom 500" },
    ollamaBehavior := { available := true, chunks := [helloChunk1, helloChunk2] } }

/-- Like `failEnv`, but the Ollama liveness probe fails too, so no fallback
is available. -/
def failEnvNoFb : Env :=
  { settings := { gemini_api_key := "k", cache_enabled := false }, sha256hex := id,
    geminiBehavior := { available := true, streamTail := some "boom 500" },
    ollamaBehavior := { available := false } }

/-- Environment with caching on (stock settings plus a Gemini key), a
failing Gemini stream, and a working Ollama fallback. -/
def fbEnv : Env :=
  { settings := { gemini_api_key := "k" }, sha256hex := id,
    geminiBehavior := { available := true, streamTail := some "boom 500" },
    ollamaBehavior := { available := true, chunks := [helloChunk1, helloChunk2] } }

/-! ## C4 — metrics derivation -/

/-- C4 (counterexample): the claim says `tokens_per_second` equals
`total_tokens / (end − (start + ttft))` whenever `end_time` and
`time_to_first_token` are set and the denominator is positive; but for
`start=0, end=3, ttft=1, total_tokens=0` (denominator `2 > 0`) the code
returns `None` rather than the claimed `0/2 = 0`, because the Python
truthiness test `if ... and self.total_tokens` treats `0` as unset. -/
theorem tokensPerSecond_zero_total_counterexample :
    ({ model := "m", model_provider := "p", start_time := 0, end_time := some 3,
       time_to_first_token := some 1, total_tokens := some 0 } :
        PerformanceMetrics).end_time = some 3 ∧
    ({ model := "m", model_provider := "p", start_time := 0, end_time := some 3,
       time_to_first_token := some 1, total_tokens := some 0 } :
        PerformanceMetrics).time_to_first_token = some 1 ∧
    (0 : ℚ) < 3 - (0 + 1) ∧
    ({ model := "m", model_provider := "p", start_time := 0, end_time := some 3,
       time_to_first_token := some 1, total_tokens := some 0 } :
        PerformanceMetrics).tokens_per_second = none := by
  refine ⟨rfl, rfl, by norm_num, ?_⟩
  simp [PerformanceMetrics.tokens_per_second, pyTruthyQ, pyTruthyN]

/-- C4 (amended): `total_time = end − start` whenever `end_time` is set to
a nonzero value and is undefined otherwise; `tokens_per_second =
total_tokens / (end − (start + ttft))` whenever `end_time`,
`time_to_first_token` and `total_tokens` are all set to nonzero values and
the denominator is positive, and undefined otherwise (zero values are
"unset" under Python truthiness). -/
theorem metrics_derivation (m : PerformanceMetrics) :
    (∀ e : ℚ, m.end_time = some e → e ≠ 0 → m.total_time = some (e - m.start_time)) ∧
    (pyTruthyQ m.end_time = false → m.total_time = none) ∧
    (∀ (e t : ℚ) (n : ℕ), m.end_time = some e → e ≠ 0 →
      m.time_to_first_token = some t → t ≠ 0 → m.total_tokens = some n → n ≠ 0 →
      0 < e - (m.start_time + t) →
      m.tokens_per_second = some ((n : ℚ) / (e - (m.start_time + t)))) ∧
    (pyTruthyQ m.end_time = false ∨ pyTruthyQ m.time_to_first_token = false ∨
        pyTruthyN m.total_tokens = false ∨
        ¬ 0 < m.end_time.getD 0 - (m.start_time + m.time_to_first_token.getD 0) →
      m.tokens_per_second = none) := by
  refine ⟨?_, ?_, ?_, ?_⟩
  · intro e he hne
    simp [PerformanceMetrics.total_time, pyTruthyQ, he, hne]
  · intro h
    simp [PerformanceMetrics.total_time, h]
  · intro e t n he hne ht htne hn hnne hpos
    simp [PerformanceMetrics.tokens_per_second, pyTruthyQ, pyTruthyN, he, ht, hn, hne, htne,
      hnne, hpos]
  · intro h
    rcases h with h | h | h | h <;>
      simp [PerformanceMetrics.tokens_per_second, h]

/-- C4 (witness): the spec's worked example — `start=0, ttft=1.0, end=3.0,
total_tokens=20` gives `tokens_per_second = 10` and `total_time = 3`. -/
theorem metrics_derivation_witness :
    ({ model := "m", model_provider := "p", start_time := 0, end_time := some 3,
       time_to_first_token := some 1, total_tokens := some 20 } :
        PerformanceMetrics).tokens_per_second = some 10 ∧
    ({ model := "m", model_provider := "p", start_time := 0, end_time := some 3,
       time_to_first_token := some 1, total_tokens := some 20 } :
        PerformanceMetrics).total_time = some 3 := by
  constructor
  · have h := (metrics_derivation
      { model := "m", model_provider := "p", start_time := 0, end_time := some 3,
        time_to_first_token := some 1, total_tokens := some 20 }).2.2.1
      3 1 20 rfl (by norm_num) rfl (by norm_num) rfl (by norm_num) (by norm_num)
    rw [h]
    norm_num
  · have h := (metrics_derivation
      { model := "m", model_provider := "p", start_time := 0, end_time := some 3,
        time_to_first_token := some 1, total_tokens := some 20 }).1
      3 rfl (by norm_num)
    rw [h]
    norm_num

/-! ## C3 — cache-key fingerprinting -/

/-- Splitting a list at the first occurrence of a character is unambiguous. -/
theorem split_at_first_e {c : Char} :
    ∀ (as as' bs bs' : List Char), as ++ c :: bs = as' ++ c :: bs' →
      c ∉ as → c ∉ as' → as = as' ∧ bs = bs' := by
  intro as
  induction as with
  | nil =>
      intro as' bs bs' h _ ha'
      cases as' with
      | nil => simpa using h
      | cons a t =>
          simp only [List.nil_append, List.cons_append, List.cons.injEq] at h
          exact absurd (h.1 ▸ List.mem_cons_self a t) ha'
  | cons a t ih =>
      intro as' bs bs' h ha ha'
      cases as' with
      | nil =>
          simp only [List.cons_append, List.nil_append, List.cons.injEq] at h
          rw [h.1] at ha
          simp at ha
      | cons a' t' =>
          simp only [List.cons_append, List.cons.injEq] at h
          have ht := ih t' bs bs' h.2 (fun hm => ha (List.mem_cons_of_mem a hm))
            (fun hm => ha' (List.mem_cons_of_mem a' hm))
          exact ⟨by rw [h.1, ht.1], ht.2⟩

/-- The pipe-joined fingerprint input is injective as long as the provider
name and the model name contain no `|` (the code text may contain any
characters). -/
theorem cacheKeyInput_injective_of_pipe_free
    (code p m code' p' m' : String)
    (hp : '|' ∉ p.data) (hm : '|' ∉ m.data) (hp' : '|' ∉ p'.data) (hm' : '|' ∉ m'.data)
    (h : cacheKeyInput code p m = cacheKeyInput code' p' m') :
    code = code' ∧ p = p' ∧ m = m' := by
  have hd := congrArg String.data h
  simp only [cacheKeyInput, String.data_append] at hd
  have hrev := congrArg List.reverse hd
  simp only [List.reverse_append, List.append_assoc] at hrev
  have h1 : m.data.reverse ++ '|' :: (p.data.reverse ++ '|' :: code.data.reverse)
      = m'.data.reverse ++ '|' :: (p'.data.reverse ++ '|' :: code'.data.reverse) := by
    simpa using hrev
  have hs1 := split_at_first_e _ _ _ _ h1
    (by simpa using hm) (by simpa using hm')
  have hs2 := split_at_first_e _ _ _ _ hs1.2
    (by simpa using hp) (by simpa using hp')
  refine ⟨?_, ?_, ?_⟩
  · exact String.ext (by simpa using congrArg List.reverse hs2.2)
  · exact String.ext (by simpa using congrArg List.reverse hs2.1)
  · exact String.ext (by simpa using congrArg List.reverse hs1.1)

/-- C3 (counterexample): two logically distinct `(code, provider, model)`
triples can produce the same fingerprint input string — the joining
character `|` also occurs in ordinary code — so they are hashed to the same
key even with a collision-free hash. -/
theorem cacheKeyInput_distinct_triples_collision :
    cacheKeyInput "a|b" "c" "m" = cacheKeyInput "a" "b|c" "m" ∧
    ¬ (("a|b", "c", "m") = ("a", "b|c", "m")) := by
  exact ⟨rfl, by decide⟩

/-- C3 (amended): the cache-key function is pure — equal triples always
yield equal keys — and, restricted to triples whose provider name and
model name contain no `|` character (true of both registered providers and
their configured models), two distinct triples never map to the same key,
assuming (the probability-zero-collisions convention) that the digest is
injective. -/
theorem get_cache_key_pure_and_injective
    (hash : String → String) (hinj : Function.Injective hash)
    (code p m code' p' m' : String)
    (hp : '|' ∉ p.data) (hm : '|' ∉ m.data) (hp' : '|' ∉ p'.data) (hm' : '|' ∉ m'.data) :
    (code = code' → p = p' → m = m' →
      get_cache_key hash code p m = get_cache_key hash code' p' m') ∧
    (get_cache_key hash code p m = get_cache_key hash code' p' m' →
      code = code' ∧ p = p' ∧ m = m') := by
  constructor
  · intro h1 h2 h3
    rw [h1, h2, h3]
  · intro h
    exact cacheKeyInput_injective_of_pipe_free code p m code' p' m' hp hm hp' hm' (hinj h)

/-- C3 (witness): concrete use at the registered provider/model names with
an injective digest stand-in. -/
theorem get_cache_key_pure_and_injective_witness :
    (get_cache_key id "print(1)" "gemini" "gemini-2.5-flash" =
      get_cache_key id "print(1)" "gemini" "gemini-2.5-flash") ∧
    (get_cache_key id "print(1)" "gemini" "gemini-2.5-flash" =
        get_cache_key id "print(1)" "ollama" "llama3.2:1b" →
      ("print(1)" : String) = "print(1)" ∧ ("gemini" : String) = "ollama" ∧
        ("gemini-2.5-flash" : String) = "llama3.2:1b") := by
  have h1 := get_cache_key_pure_and_injective id (fun _a _b hab => hab)
    "print(1)" "gemini" "gemini-2.5-flash" "print(1)" "gemini" "gemini-2.5-flash"
    (by decide) (by decide) (by decide) (by decide)
  have h2 := get_cache_key_pure_and_injective id (fun _a _b hab => hab)
    "print(1)" "gemini" "gemini-2.5-flash" "print(1)" "ollama" "llama3.2:1b"
    (by decide) (by decide) (by decide) (by decide)
  exact ⟨h1.1 rfl rfl rfl, h2.2⟩

/-! ## C8 — validation length short-circuit -/

theorem dropWhile_whitespace_replicate_space :
    ∀ n, List.dropWhile Char.isWhitespace (List.replicate n ' ') = [] := by
  intro n
  induction n with
  | zero => rfl
  | succ n ih => simp [List.replicate_succ, List.dropWhile_cons, ih]

/-- C8 (counterexample): an input can violate both bounds at once — e.g.
100001 blanks has raw length above the 100000 maximum, yet its trimmed
length is 0, so the code short-circuits on the *minimum* check and the
returned reason states the minimum, not the maximum as the claim requires
for every input whose raw length exceeds the maximum. -/
theorem validate_bounds_overlap_counterexample :
    (String.mk (List.replicate 100001 ' ')).length > baseEnv.settings.max_code_length ∧
    validateInputCode baseEnv (String.mk (List.replicate 100001 ' ')) =
      ({ is_valid := false, reason := "Code is too short (minimum 10 characters)",
         confidence := 1 }, []) := by
  have hd : (String.mk (List.replicate 100001 ' ')).data.dropWhile Char.isWhitespace = [] :=
    dropWhile_whitespace_replicate_space 100001
  have hstrip : pyStrip (String.mk (List.replicate 100001 ' ')) = "" := by
    unfold pyStrip
    rw [hd]
    rfl
  constructor
  · show (List.replicate 100001 ' ').length > _
    rw [List.length_replicate]
    decide
  · rw [validateInputCode, hstrip]
    rw [if_pos (by decide : ("" : String).length < baseEnv.settings.min_code_length)]
    rfl

/-- C8 (amended): an input whose trimmed length is below the minimum is
rejected with confidence 1.0 and a reason stating the minimum; an input
whose trimmed length passes the minimum check but whose raw length exceeds
the maximum is rejected with confidence 1.0 and a reason stating the
maximum; in both cases no provider is contacted (the event trace is
empty). -/
theorem validate_length_short_circuit (env : Env) (code : String) :
    ((pyStrip code).length < env.settings.min_code_length →
      validateInputCode env code =
        ({ is_valid := false,
           reason := "Code is too short (minimum " ++
             toString env.settings.min_code_length ++ " characters)",
           confidence := 1 }, [])) ∧
    (¬ (pyStrip code).length < env.settings.min_code_length →
      code.length > env.settings.max_code_length →
      validateInputCode env code =
        ({ is_valid := false,
           reason := "Code is too large (maximum " ++
             toString (env.settings.max_code_length / 1000) ++ "KB)",
           confidence := 1 }, [])) := by
  constructor
  · intro h
    rw [validateInputCode, if_pos h]
  · intro h1 h2
    rw [validateInputCode, if_neg h1, if_pos h2]

/-- C8 (witness): the spec's example — code of length 5 against the stock
minimum threshold 10 is rejected with confidence 1.0, no provider
contacted. -/
theorem validate_length_short_circuit_witness :
    ("abcde" : String).length = 5 ∧
    validateInputCode baseEnv "abcde" =
      ({ is_valid := false, reason := "Code is too short (minimum 10 characters)",
         confidence := 1 }, []) := by
  refine ⟨rfl, ?_⟩
  have h := (validate_length_short_circuit baseEnv "abcde").1 (by decide)
  rw [h]
  rfl

/-! ## C9, C10 — validator fail-open -/

theorem getProviderByName_gemini_e (env : Env) :
    env.getProviderByName "gemini" = some env.gemini := rfl

theorem getProviderByName_ollama_e (env : Env) :
    env.getProviderByName "ollama" = some env.ollama := rfl

theorem gemini_behavior_e (env : Env) : env.gemini.behavior = env.geminiBehavior := rfl

theorem ollama_behavior_e (env : Env) : env.ollama.behavior = env.ollamaBehavior := rfl

theorem intercalate_semi_nil_e : String.intercalate "; " [] = "" := rfl

/-- C9: for an in-bounds input, when every available provider's
structured-generation call raises, validation fails open: it returns
`is_valid = true` with confidence 0.5 and a reason joining every tried
provider's `"{name}: {error}"` entry, contacting the providers in the fixed
`ollama`-then-`gemini` order; no exception escapes (the function is total
by construction). -/
theorem validate_fail_open_on_provider_errors (env : Env) (code : String)
    (hmin : ¬ (pyStrip code).length < env.settings.min_code_length)
    (hmax : ¬ code.length > env.settings.max_code_length)
    (eo eg : String)
    (ho : env.ollama.is_available = true → env.ollamaBehavior.structuredResult = .error eo)
    (hg : env.gemini.is_available = true → env.geminiBehavior.structuredResult = .error eg) :
    validateInputCode env code =
      ({ is_valid := true,
         reason := "Validation check skipped due to errors: " ++ String.intercalate "; "
           ((if env.ollama.is_available then ["ollama: " ++ eo] else []) ++
            (if env.gemini.is_available then ["gemini: " ++ eg] else [])),
         confidence := 1/2 },
       (if env.ollama.is_available then [Event.structuredCall "ollama"] else []) ++
       (if env.gemini.is_available then [Event.structuredCall "gemini"] else [])) := by
  rw [validateInputCode, if_neg hmin, if_neg hmax]
  cases hoa : env.ollama.is_available with
  | false =>
      cases hga : env.gemini.is_available with
      | false =>
          simp [validationLoop, getProviderByName_ollama_e, getProviderByName_gemini_e, hoa, hga]
      | true =>
          simp [validationLoop, getProviderByName_ollama_e, getProviderByName_gemini_e,
            gemini_behavior_e, ollama_behavior_e, hoa, hga, hg hga]
  | true =>
      cases hga : env.gemini.is_available with
      | false =>
          simp [validationLoop, getProviderByName_ollama_e, getProviderByName_gemini_e,
            gemini_behavior_e, ollama_behavior_e, hoa, hga, ho hoa]
      | true =>
          simp [validationLoop, getProviderByName_ollama_e, getProviderByName_gemini_e,
            gemini_behavior_e, ollama_behavior_e, hoa, hga, ho hoa, hg hga]

/-- C9 (witness): both providers available and both validators raising —
the fail-open result enumerates both error messages in order. -/
theorem validate_fail_open_on_provider_errors_witness :
    validateInputCode bothFailEnv "def add(a, b): return a + b" =
      ({ is_valid := true,
         reason := "Validation check skipped due to errors: " ++
           "ollama: Ollama structured generation error: down; " ++
           "gemini: Gemini structured generation error: boom",
         confidence := 1/2 },
       [Event.structuredCall "ollama", Event.structuredCall "gemini"]) := by
  have h := validate_fail_open_on_provider_errors bothFailEnv "def add(a, b): return a + b"
    (by decide) (by decide)
    "Ollama structured generation error: down" "Gemini structured generation error: boom"
    (fun _ => rfl) (fun _ => rfl)
  rw [h]
  rfl

/-- C10: for an in-bounds input with no available provider, validation
still fails open — `is_valid = true`, confidence 0.5, the error enumeration
in the reason empty, no provider contacted — and consequently `explain`
with `validate_input = true` behaves exactly as with `validate_input =
false`: it never rejects such an input because the validators are
unavailable. -/
theorem validate_fail_open_no_providers (env : Env) (code : String)
    (hmin : ¬ (pyStrip code).length < env.settings.min_code_length)
    (hmax : ¬ code.length > env.settings.max_code_length)
    (ho : env.ollama.is_available = false)
    (hg : env.gemini.is_available = false) :
    validateInputCode env code =
      ({ is_valid := true, reason := "Validation check skipped due to errors: ",
         confidence := 1/2 }, []) ∧
    ∀ pn af cb st, explainFn env code pn af cb true st = explainFn env code pn af cb false st := by
  have h1 : validateInputCode env code =
      ({ is_valid := true, reason := "Validation check skipped due to errors: ",
         confidence := 1/2 }, []) := by
    rw [validateInputCode, if_neg hmin, if_neg hmax]
    simp [validationLoop, getProviderByName_ollama_e, getProviderByName_gemini_e,
      intercalate_semi_nil_e, ho, hg]
  refine ⟨h1, ?_⟩
  intro pn af cb st
  simp [explainFn, explainGo, explainBody, h1]

/-- C10 (witness): stock settings, Gemini key absent, Ollama probe down:
validation of an in-bounds snippet fails open and `explain` is
validation-transparent. -/
theorem validate_fail_open_no_providers_witness :
    validateInputCode baseEnv "def add(a, b): return a + b" =
      ({ is_valid := true, reason := "Validation check skipped due to errors: ",
         confidence := 1/2 }, []) ∧
    explainFn baseEnv "def add(a, b): return a + b" none true false true
        ⟨fun _ => none, 0⟩ =
      explainFn baseEnv "def add(a, b): return a + b" none true false false
        ⟨fun _ => none, 0⟩ := by
  have h := validate_fail_open_no_providers baseEnv "def add(a, b): return a + b"
    (by decide) (by decide) rfl rfl
  exact ⟨h.1, h.2 none true false ⟨fun _ => none, 0⟩⟩

/-! ## C5 — streaming order -/

theorem str_empty_append (s : String) : "" ++ s = s := rfl

theorem str_append_empty (s : String) : s ++ "" = s :=
  String.ext (by simp [String.data_append])

theorem str_append_assoc (a b c : String) : a ++ b ++ c = a ++ (b ++ c) :=
  String.ext (by simp [String.data_append])

/-- Running the stream loop appends the concatenated fragment text to the
accumulator, and appends exactly the receive/forward trace `chunkTrace` to
the event accumulator: each fragment is forwarded to the sink directly
after it is received, before the next fragment is requested. -/
theorem streamLoop_run (hasCb : Bool) (tok : StreamChunk → PerformanceMetrics → PerformanceMetrics) :
    ∀ (cs : List StreamChunk) (fs : Bool) (expl : String) (m : PerformanceMetrics)
      (ev : List Event) (c : ℚ),
      ∃ m' c', streamLoop hasCb tok cs fs expl m ev c =
        (expl ++ joinedContents cs, m', ev ++ chunkTrace hasCb cs, c') := by
  intro cs
  induction cs with
  | nil =>
      intro fs expl m ev c
      exact ⟨m, c, by simp [streamLoop, joinedContents, chunkTrace, str_append_empty]⟩
  | cons ch rest ih =>
      intro fs expl m ev c
      by_cases hc : ch.content = ""
      · obtain ⟨m', c', h⟩ := ih fs expl (tok ch m) (ev ++ [Event.fragmentReceived ch.content]) c
        refine ⟨m', c', ?_⟩
        rw [streamLoop]
        simp only [hc] at h ⊢
        simp only [List.append_assoc] at h ⊢
        simp [h, joinedContents, chunkTrace, hc, str_empty_append]
      · cases fs with
        | true =>
            obtain ⟨m', c', h⟩ := ih true (expl ++ ch.content) (tok ch m)
              (ev ++ [Event.fragmentReceived ch.content] ++
                (if hasCb then [Event.chunk ch.content] else [])) c
            refine ⟨m', c', ?_⟩
            rw [streamLoop]
            simp only [str_append_assoc, List.append_assoc, List.singleton_append] at h ⊢
            simp [h, joinedContents, chunkTrace, hc]
        | false =>
            obtain ⟨m', c', h⟩ := ih true (expl ++ ch.content)
              (tok ch { m with time_to_first_token := some (c - m.start_time) })
              (ev ++ [Event.fragmentReceived ch.content] ++
                (if hasCb then [Event.chunk ch.content] else [])) (c + 1)
            refine ⟨m', c', ?_⟩
            rw [streamLoop]
            simp only [str_append_assoc, List.append_assoc, List.singleton_append] at h ⊢
            simp [h, joinedContents, chunkTrace, hc]

/-- The sink receives exactly the non-empty fragments, in emission order. -/
theorem chunkTrace_filter_chunk :
    ∀ cs : List StreamChunk,
      (chunkTrace true cs).filter isChunkEv =
        ((cs.map StreamChunk.content).filter (fun s => s ≠ "")).map Event.chunk := by
  intro cs
  induction cs with
  | nil => rfl
  | cons ch rest ih =>
      by_cases hc : ch.content = "" <;>
        simp [chunkTrace, hc, isChunkEv, ih]

/-- C5: during a streamed Ollama generation with a sink installed, every
fragment is forwarded to the sink right after it is received (before the
next fragment is requested), the sink receives exactly the non-empty
fragments in emission order, and — when the backend does not raise and
produced some text — the returned explanation is the concatenation of the
fragments. -/
theorem ollama_streaming_order (p : Provider) (m : PerformanceMetrics) (c : ℚ)
    (htail : p.behavior.streamTail = none)
    (hne : joinedContents p.behavior.chunks ≠ "") :
    ∃ m' c',
      ollamaInvokeModel p m true c =
        (.ok (joinedContents p.behavior.chunks), m', chunkTrace true p.behavior.chunks, c') ∧
      (chunkTrace true p.behavior.chunks).filter isChunkEv =
        ((p.behavior.chunks.map StreamChunk.content).filter (fun s => s ≠ "")).map
          Event.chunk := by
  obtain ⟨m', c', h⟩ := streamLoop_run true ollamaTok p.behavior.chunks false "" m [] c
  refine ⟨m', c', ?_, chunkTrace_filter_chunk p.behavior.chunks⟩
  rw [ollamaInvokeModel, h, htail]
  simp [str_empty_append, hne]

/-- C5 (witness): the spec's example — fragments `["Hello", " world"]` are
forwarded as exactly two sink calls in order and the returned explanation
is `"Hello world"`. -/
theorem ollama_streaming_order_witness :
    (ollamaInvokeModel helloProvider helloMetrics true 0).1 = .ok "Hello world" ∧
    (ollamaInvokeModel helloProvider helloMetrics true 0).2.2.1 =
      [Event.fragmentReceived "Hello", Event.chunk "Hello",
       Event.fragmentReceived " world", Event.chunk " world"] ∧
    ((ollamaInvokeModel helloProvider helloMetrics true 0).2.2.1).filter isChunkEv =
      [Event.chunk "Hello", Event.chunk " world"] := by
  obtain ⟨m', c', h1, h2⟩ :=
    ollama_streaming_order helloProvider helloMetrics 0 rfl (by decide)
  rw [h1]
  exact ⟨rfl, rfl, rfl⟩

/-! ## C7 — provider resolution -/

theorem get_fallback_provider_iff (env : Env) (f : String) (p : Provider) :
    get_fallback_provider env f = some p ↔
      (env.getProviderByName (if f = "gemini" then "ollama" else "gemini") = some p ∧
        p.is_available = true) := by
  rw [get_fallback_provider]
  rcases hq : env.getProviderByName (if f = "gemini" then "ollama" else "gemini") with _ | q
  · simp [hq]
  · simp only [hq]
    rcases ha : q.is_available with _ | _
    · simp [ha]
      rintro rfl
      simp [ha]
    · simp [ha]
      rintro rfl
      exact ha

/-- C7: resolution of the active provider — an unregistered name fails with
the provider-unknown error, a registered but unavailable provider fails
with the provider-not-available error; when resolution fails and
`auto_fallback` is true the code substitutes the designated other
registered provider exactly when that provider is available, and otherwise
`explain` raises the no-providers-available error. -/
theorem provider_resolution (env : Env) (code : String) (cb vi : Bool) (st : St) :
    (∀ n, n ≠ "" → env.getProviderByName n = none →
      get_provider env (some n) = .error ("Unknown provider: " ++ n)) ∧
    (∀ n p, n ≠ "" → env.getProviderByName n = some p → p.is_available = false →
      get_provider env (some n) =
        .error ("Provider " ++ n ++ " is not available (missing API key)")) ∧
    (∀ pn e, get_provider env pn = .error e →
      (∀ fp, get_fallback_provider env (resolveName env pn) = some fp →
        resolveActiveProvider env pn true = .ok fp ∧ fp.is_available = true) ∧
      (get_fallback_provider env (resolveName env pn) = none →
        resolveActiveProvider env pn true = .error "No ML providers are available" ∧
        ((vi = true → (validateInputCode env code).1.is_valid = true) →
          (explainFn env code pn true cb vi st).1 =
            .error "No ML providers are available"))) := by
  refine ⟨?_, ?_, ?_⟩
  · intro n hn h
    rw [get_provider]
    have hr : resolveName env (some n) = n := by simp [resolveName, hn]
    rw [hr, h]
  · intro n p hn h ha
    rw [get_provider]
    have hr : resolveName env (some n) = n := by simp [resolveName, hn]
    rw [hr, h]
    simp [ha]
  · intro pn e hgp
    constructor
    · intro fp hfb
      refine ⟨?_, ((get_fallback_provider_iff env _ fp).mp hfb).2⟩
      rw [resolveActiveProvider, hgp]
      simp [hfb]
    · intro hfb
      have hres : resolveActiveProvider env pn true = .error "No ML providers are available" := by
        rw [resolveActiveProvider, hgp]
        simp [hfb]
      refine ⟨hres, ?_⟩
      intro hv
      have hguard : ¬ (vi = true ∧ ¬ (validateInputCode env code).1.is_valid = true) := by
        rintro ⟨h1, h2⟩
        exact h2 (hv h1)
      rw [explainFn, explainGo, explainBody]
      split
      · rename_i hcontra
        exact absurd ⟨hcontra.1, by simpa using hcontra.2⟩ hguard
      · rw [explainAfterValidation, hres]

/-- C7 (witness): with no Gemini key and the Ollama probe down —
`openai` is unknown, `gemini` is registered but unavailable, and with
fallback enabled resolution ends in the no-providers-available error,
which `explain` raises. -/
theorem provider_resolution_witness :
    get_provider baseEnv (some "openai") = .error "Unknown provider: openai" ∧
    get_provider baseEnv (some "gemini") =
      .error "Provider gemini is not available (missing API key)" ∧
    resolveActiveProvider baseEnv (some "gemini") true =
      .error "No ML providers are available" ∧
    (explainFn baseEnv "def add(a, b): return a + b" (some "gemini") true false false
        ⟨fun _ => none, 0⟩).1 = .error "No ML providers are available" := by
  have h := provider_resolution baseEnv "def add(a, b): return a + b" false false
    ⟨fun _ => none, 0⟩
  have h1 := h.1 "openai" (by decide) rfl
  have h2 := h.2.1 "gemini" baseEnv.gemini (by decide) rfl rfl
  have h3 := (h.2.2 (some "gemini") "Provider gemini is not available (missing API key)"
    h2).2 rfl
  exact ⟨h1, h2, h3.1, h3.2 (by intro hb; cases hb)⟩

/-! ## Infrastructure for the explain-level claims -/

theorem invokeModel_fst (p : Provider) (m : PerformanceMetrics) (cb : Bool) (c : ℚ) :
    (p.invokeModel m cb c).1 = invokeOutcome p := by
  obtain ⟨mo, co, ho⟩ := streamLoop_run cb ollamaTok p.behavior.chunks false "" m [] c
  obtain ⟨mg, cg, hg⟩ := streamLoop_run cb (fun _ mm => mm) p.behavior.chunks false "" m [] c
  cases hk : p.kind with
  | ollama =>
      simp only [Provider.invokeModel, hk, ollamaInvokeModel, ho, str_empty_append, invokeOutcome]
      cases htail : p.behavior.streamTail <;> simp [htail, hk] <;> split <;> rfl
  | gemini =>
      simp only [Provider.invokeModel, hk, geminiInvokeModel, hg, str_empty_append, invokeOutcome]
      cases htail : p.behavior.streamTail <;> simp [htail, hk] <;> split <;> rfl

theorem explain_code_fst (p : Provider) (m : PerformanceMetrics) (cb : Bool) (c : ℚ) :
    (p.explain_code m cb c).1 = genOutcome p := by
  rw [Provider.explain_code]
  have h := invokeModel_fst p { m with model := p.model, model_provider := p.name } cb c
  rcases hx : p.invokeModel { m with model := p.model, model_provider := p.name } cb c with
    ⟨r, mm, ev, cc⟩
  rw [hx] at h
  cases r with
  | ok s => simp at h; rw [genOutcome, ← h]
  | error e => simp at h; rw [genOutcome, ← h]

theorem chunkTrace_shape (hasCb : Bool) :
    ∀ (cs : List StreamChunk) (x : Event), x ∈ chunkTrace hasCb cs →
      (∃ s, x = Event.fragmentReceived s) ∨ (∃ s, x = Event.chunk s) := by
  intro cs
  induction cs with
  | nil => intro x hx; cases hx
  | cons ch rest ih =>
      intro x hx
      rw [chunkTrace] at hx
      simp only [List.mem_append, List.mem_singleton] at hx
      rcases hx with (hx | hx) | hx
      · exact Or.inl ⟨ch.content, hx⟩
      · rcases Decidable.em (ch.content ≠ "" ∧ hasCb = true) with hcond | hcond
        · rw [if_pos hcond] at hx
          simp at hx
          exact Or.inr ⟨ch.content, hx⟩
        · rw [if_neg hcond] at hx
          cases hx
      · exact ih x hx

theorem invokeModel_events (p : Provider) (m : PerformanceMetrics) (cb : Bool) (c : ℚ) :
    ∀ x ∈ (p.invokeModel m cb c).2.2.1,
      (∃ s, x = Event.fragmentReceived s) ∨ (∃ s, x = Event.chunk s) := by
  obtain ⟨mo, co, ho⟩ := streamLoop_run cb ollamaTok p.behavior.chunks false "" m [] c
  obtain ⟨mg, cg, hg⟩ := streamLoop_run cb (fun _ mm => mm) p.behavior.chunks false "" m [] c
  cases hk : p.kind with
  | ollama =>
      simp only [Provider.invokeModel, hk, ollamaInvokeModel, ho]
      cases htail : p.behavior.streamTail <;> simp [htail] <;>
        first
        | exact fun x hx => chunkTrace_shape cb p.behavior.chunks x hx
        | (split <;> exact fun x hx => chunkTrace_shape cb p.behavior.chunks x hx)
  | gemini =>
      simp only [Provider.invokeModel, hk, geminiInvokeModel, hg]
      cases htail : p.behavior.streamTail <;> simp [htail] <;>
        first
        | exact fun x hx => chunkTrace_shape cb p.behavior.chunks x hx
        | (split <;> exact fun x hx => chunkTrace_shape cb p.behavior.chunks x hx)

theorem explain_code_events (p : Provider) (m : PerformanceMetrics) (cb : Bool) (c : ℚ) :
    ∀ x ∈ (p.explain_code m cb c).2.2.1,
      (∃ s, x = Event.fragmentReceived s) ∨ (∃ s, x = Event.chunk s) := by
  rw [Provider.explain_code]
  have h := invokeModel_events p { m with model := p.model, model_provider := p.name } cb c
  rcases hx : p.invokeModel { m with model := p.model, model_provider := p.name } cb c with
    ⟨r, mm, ev, cc⟩
  rw [hx] at h
  cases r with
  | ok s => exact h
  | error e => exact h

theorem validationLoop_events_structured (env : Env) :
    ∀ (names : List String) (errs : List String) (ev : List Event),
      (∀ x ∈ ev, isStructuredEv x = true) →
      ∀ x ∈ (validationLoop env names errs ev).2, isStructuredEv x = true := by
  intro names
  induction names with
  | nil => intro errs ev hev; exact hev
  | cons n rest ih =>
      intro errs ev hev x hx
      rw [validationLoop] at hx
      have hev' : ∀ y ∈ ev ++ [Event.structuredCall n], isStructuredEv y = true := by
        intro y hy
        rcases List.mem_append.mp hy with hy | hy
        · exact hev y hy
        · simp only [List.mem_singleton] at hy
          rw [hy]
          rfl
      rcases hq : env.getProviderByName n with _ | p
      · simp only [hq] at hx
        exact ih errs ev hev x hx
      · simp only [hq] at hx
        rcases ha : p.is_available with _ | _
        · simp only [ha, Bool.false_eq_true, if_false] at hx
          exact ih errs ev hev x hx
        · simp only [ha, if_true] at hx
          rcases hs : p.behavior.structuredResult with e | r
          · simp only [hs] at hx
            exact ih _ _ hev' x hx
          · simp only [hs] at hx
            exact hev' x hx

theorem validateInputCode_events_structured (env : Env) (code : String) :
    ∀ x ∈ (validateInputCode env code).2, isStructuredEv x = true := by
  rw [validateInputCode]
  split
  · intro x hx; cases hx
  · split
    · intro x hx; cases hx
    · exact validationLoop_events_structured env ["ollama", "gemini"] [] []
        (fun x hx => by cases hx)

theorem explainBody_of_valid (env : Env) (code : String) (pn : Option String)
    (af cb vi : Bool) (st : St) (retry : String → String → St → ExplainOut)
    (hv : vi = true → (validateInputCode env code).1.is_valid = true) :
    explainBody env code pn af cb vi st retry =
      explainAfterValidation env code pn af cb st
        (if vi then (validateInputCode env code).2 else []) retry := by
  rw [explainBody]
  split
  · rename_i hcontra
    exact absurd (hv hcontra.1) (by simpa using hcontra.2)
  · rfl

theorem explainAfterValidation_resolution_error (env : Env) (code : String) (pn : Option String)
    (af cb : Bool) (st : St) (vev : List Event) (retry : String → String → St → ExplainOut)
    (e : String) (hres : resolveActiveProvider env pn af = .error e) :
    explainAfterValidation env code pn af cb st vev retry = (.error e, st, vev) := by
  rw [explainAfterValidation, hres]

theorem explainAfterValidation_hit (env : Env) (code : String) (pn : Option String)
    (af cb : Bool) (st : St) (vev : List Event) (retry : String → String → St → ExplainOut)
    (P : Provider) (cached : ExplanationResult)
    (hres : resolveActiveProvider env pn af = .ok P)
    (hcache : env.settings.cache_enabled = true)
    (hhit : cacheGet st.cache (get_cache_key env.sha256hex code P.name P.model) st.clock =
      some cached) :
    explainAfterValidation env code pn af cb st vev retry =
      (.ok { cached with metrics := { cached.metrics with cache_hit := true, start_time := st.clock, end_time := some (st.clock + 1) } },
       ⟨st.cache, st.clock + 1 + 1⟩,
       vev ++ [Event.cacheRead (get_cache_key env.sha256hex code P.name P.model)] ++
         (if cb then [Event.chunk cached.explanation] else [])) := by
  rw [explainAfterValidation, hres]
  simp only [hcache, if_true, hhit]

theorem explainAfterValidation_miss (env : Env) (code : String) (pn : Option String)
    (af cb : Bool) (st : St) (vev : List Event) (retry : String → String → St → ExplainOut)
    (P : Provider)
    (hres : resolveActiveProvider env pn af = .ok P)
    (hcache : env.settings.cache_enabled = true)
    (hmiss : cacheGet st.cache (get_cache_key env.sha256hex code P.name P.model) st.clock =
      none) :
    explainAfterValidation env code pn af cb st vev retry =
      explainMissPath env code af cb P
        (some (get_cache_key env.sha256hex code P.name P.model)) ⟨st.cache, st.clock + 1⟩
        (vev ++ [Event.cacheRead (get_cache_key env.sha256hex code P.name P.model)]) retry := by
  rw [explainAfterValidation, hres]
  simp only [hcache, if_true, hmiss]

theorem explainAfterValidation_nocache (env : Env) (code : String) (pn : Option String)
    (af cb : Bool) (st : St) (vev : List Event) (retry : String → String → St → ExplainOut)
    (P : Provider)
    (hres : resolveActiveProvider env pn af = .ok P)
    (hcache : env.settings.cache_enabled = false) :
    explainAfterValidation env code pn af cb st vev retry =
      explainMissPath env code af cb P none st vev retry := by
  rw [explainAfterValidation, hres]
  simp only [hcache]
  rfl

theorem filter_structured_nil (l : List Event) (h : ∀ x ∈ l, isStructuredEv x = true) :
    l.filter isGenCallEv = [] ∧ l.filter isChunkEv = [] ∧ l.filter isCacheWriteEv = [] := by
  refine ⟨?_, ?_, ?_⟩ <;>
    · rw [List.filter_eq_nil_iff]
      intro a ha
      have := h a ha
      cases a <;> simp_all [isStructuredEv, isGenCallEv, isChunkEv, isCacheWriteEv]

/-! ## C2 — cache hit -/

/-- C2: on a cache hit (key present, unexpired) with the provider resolved,
`explain` returns the cached result re-stamped as a cache hit with the
probe-window timestamps, the trace carries no generation call and no cache
write, the callback is invoked exactly once with the full cached
explanation (and never when no sink is supplied), and only step-1
validation activity precedes the probe — nothing follows the hit except
the single replay callback. -/
theorem explain_cache_hit (env : Env) (code : String) (pn : Option String)
    (af cb vi : Bool) (st : St) (P : Provider) (cached : ExplanationResult)
    (hv : vi = true → (validateInputCode env code).1.is_valid = true)
    (hres : resolveActiveProvider env pn af = .ok P)
    (hcache : env.settings.cache_enabled = true)
    (hhit : cacheGet st.cache (get_cache_key env.sha256hex code P.name P.model) st.clock =
      some cached) :
    explainFn env code pn af cb vi st =
      (.ok { cached with metrics := { cached.metrics with cache_hit := true, start_time := st.clock, end_time := some (st.clock + 1) } },
       ⟨st.cache, st.clock + 1 + 1⟩,
       (if vi then (validateInputCode env code).2 else []) ++
         [Event.cacheRead (get_cache_key env.sha256hex code P.name P.model)] ++
         (if cb then [Event.chunk cached.explanation] else [])) ∧
    (explainFn env code pn af cb vi st).2.2.filter isGenCallEv = [] ∧
    (explainFn env code pn af cb vi st).2.2.filter isChunkEv =
      (if cb then [Event.chunk cached.explanation] else []) ∧
    (explainFn env code pn af cb vi st).2.2.filter isCacheWriteEv = [] := by
  have hvev : ∀ x ∈ (if vi then (validateInputCode env code).2 else []), isStructuredEv x = true := by
    intro x hx
    cases vi with
    | true => exact validateInputCode_events_structured env code x (by simpa using hx)
    | false => simp at hx
  have hf := filter_structured_nil _ hvev
  have hmain : explainFn env code pn af cb vi st =
      (.ok { cached with metrics := { cached.metrics with cache_hit := true, start_time := st.clock, end_time := some (st.clock + 1) } },
       ⟨st.cache, st.clock + 1 + 1⟩,
       (if vi then (validateInputCode env code).2 else []) ++
         [Event.cacheRead (get_cache_key env.sha256hex code P.name P.model)] ++
         (if cb then [Event.chunk cached.explanation] else [])) := by
    rw [explainFn, explainGo, explainBody_of_valid env code pn af cb vi st _ hv]
    exact explainAfterValidation_hit env code pn af cb st _ _ P cached hres hcache hhit
  refine ⟨hmain, ?_, ?_, ?_⟩ <;> rw [hmain]
  · simp only [List.filter_append, hf.1]
    cases cb <;> simp [isGenCallEv]
  · simp only [List.filter_append, hf.2.1]
    cases cb <;> simp [isChunkEv]
  · simp only [List.filter_append, hf.2.2]
    cases cb <;> simp [isCacheWriteEv]

/-- C2 (witness): a concrete hit — the cached result is returned re-stamped
to the probe window, the callback replays the cached explanation once, and
the cache is unchanged. -/
theorem explain_cache_hit_witness :
    explainFn hitEnv "def add(a, b): return a + b" none false true false ⟨hitStore, 5⟩ =
      (.ok { cachedRes with metrics := { cachedRes.metrics with cache_hit := true, start_time := 5, end_time := some (5 + 1) } },
       ⟨hitStore, 5 + 1 + 1⟩,
       [Event.cacheRead hitKey, Event.chunk "adds two numbers"]) := by
  have h := (explain_cache_hit hitEnv "def add(a, b): return a + b" none false true false
    ⟨hitStore, 5⟩ hitEnv.gemini cachedRes (fun hb => nomatch hb) rfl rfl (by decide)).1
  rw [h]
  rfl

/-! ## Miss-path shape lemmas -/

theorem explainMissPath_gen_error_eq (env : Env) (code : String) (af cb : Bool) (P : Provider)
    (key : Option String) (st : St) (ev0 : List Event)
    (retry : String → String → St → ExplainOut) (e : String) (mm : PerformanceMetrics)
    (gev : List Event) (c0 : ℚ)
    (hx : P.explain_code { model := P.model, model_provider := P.name, start_time := st.clock }
      cb (st.clock + 1) = (.error e, mm, gev, c0)) :
    explainMissPath env code af cb P key st ev0 retry =
      (if af then
        match get_fallback_provider env P.name with
        | some fp =>
            ((retry e fp.name ⟨st.cache, c0 + 1⟩).1, (retry e fp.name ⟨st.cache, c0 + 1⟩).2.1,
             ev0 ++ [Event.genCall P.name] ++ gev ++ (retry e fp.name ⟨st.cache, c0 + 1⟩).2.2)
        | none => (.error e, ⟨st.cache, c0 + 1⟩, ev0 ++ [Event.genCall P.name] ++ gev)
       else (.error e, ⟨st.cache, c0 + 1⟩, ev0 ++ [Event.genCall P.name] ++ gev)) := by
  simp only [explainMissPath, hx]

theorem explainMissPath_gen_ok_eq (env : Env) (code : String) (af cb : Bool) (P : Provider)
    (key : Option String) (st : St) (ev0 : List Event)
    (retry : String → String → St → ExplainOut) (s : String) (mm : PerformanceMetrics)
    (gev : List Event) (c0 : ℚ)
    (hx : P.explain_code { model := P.model, model_provider := P.name, start_time := st.clock }
      cb (st.clock + 1) = (.ok s, mm, gev, c0)) :
    explainMissPath env code af cb P key st ev0 retry =
      (let result : ExplanationResult := { original_code := code, explanation := s, metrics := { mm with end_time := some c0 }, timestamp := c0 + 1 }
       match key with
       | some k =>
           if k ≠ "" then
             (.ok result,
              ⟨cacheSet st.cache k result (c0 + 1 + 1 + (env.settings.cache_ttl : ℚ)), c0 + 1 + 1⟩,
              ev0 ++ [Event.genCall P.name] ++ gev ++ [Event.cacheWrite k])
           else (.ok result, ⟨st.cache, c0 + 1 + 1⟩, ev0 ++ [Event.genCall P.name] ++ gev)
       | none => (.ok result, ⟨st.cache, c0 + 1 + 1⟩, ev0 ++ [Event.genCall P.name] ++ gev)) := by
  simp only [explainMissPath, hx]

/-! ## Counting generation attempts -/

theorem filter_stream_nil (l : List Event)
    (h : ∀ x ∈ l, (∃ s, x = Event.fragmentReceived s) ∨ (∃ s, x = Event.chunk s)) :
    l.filter isGenCallEv = [] ∧ l.filter isCacheWriteEv = [] ∧ l.filter isStructuredEv = [] := by
  refine ⟨?_, ?_, ?_⟩ <;>
    · rw [List.filter_eq_nil_iff]
      intro a ha
      rcases h a ha with ⟨s, rfl⟩ | ⟨s, rfl⟩ <;>
        simp [isGenCallEv, isCacheWriteEv, isStructuredEv]

theorem countGen_append (a b : List Event) : countGen (a ++ b) = countGen a + countGen b := by
  simp [countGen, List.filter_append]

theorem countGen_explainMissPath_no_fallback (env : Env) (code : String) (cb : Bool)
    (P : Provider) (key : Option String) (st : St) (ev0 : List Event)
    (retry : String → String → St → ExplainOut) (hev0 : countGen ev0 = 0) :
    countGen (explainMissPath env code false cb P key st ev0 retry).2.2 ≤ 1 := by
  rcases hx : P.explain_code { model := P.model, model_provider := P.name, start_time := st.clock }
      cb (st.clock + 1) with ⟨r, mm, gev, c0⟩
  have hgev : countGen gev = 0 := by
    have h := explain_code_events P
      { model := P.model, model_provider := P.name, start_time := st.clock } cb (st.clock + 1)
    rw [hx] at h
    simp only [countGen, (filter_stream_nil gev h).1, List.length_nil]
  have hev0' : (List.filter isGenCallEv ev0).length = 0 := by simpa [countGen] using hev0
  have hgev' : (List.filter isGenCallEv gev).length = 0 := by simpa [countGen] using hgev
  cases r with
  | ok s =>
      rw [explainMissPath_gen_ok_eq env code false cb P key st ev0 retry s mm gev c0 hx]
      rcases key with _ | k
      · simp [countGen, List.filter_append, isGenCallEv, hev0', hgev']
      · by_cases hk : k = ""
        · subst hk
          simp [countGen, List.filter_append, isGenCallEv, hev0', hgev']
        · simp [hk, countGen, List.filter_append, isGenCallEv, isCacheWriteEv, hev0', hgev']
  | error e =>
      rw [explainMissPath_gen_error_eq env code false cb P key st ev0 retry e mm gev c0 hx]
      simp [countGen, List.filter_append, isGenCallEv, hev0', hgev']

theorem countGen_vev (env : Env) (code : String) (vi : Bool) :
    countGen (if vi then (validateInputCode env code).2 else []) = 0 := by
  cases vi with
  | true =>
      simp only [if_true, countGen,
        (filter_structured_nil _ (validateInputCode_events_structured env code)).1,
        List.length_nil]
  | false => rfl

theorem countGen_explainBody_no_fallback (env : Env) (code : String) (pn : Option String)
    (cb vi : Bool) (st : St) (retry : String → String → St → ExplainOut) :
    countGen (explainBody env code pn false cb vi st retry).2.2 ≤ 1 := by
  rw [explainBody]
  split
  · have h := (filter_structured_nil _ (validateInputCode_events_structured env code)).1
    simp [countGen, h]
  · rw [explainAfterValidation]
    rcases hres : resolveActiveProvider env pn false with e | P <;> simp only [hres]
    · simp [countGen_vev env code vi]
    · by_cases hc : env.settings.cache_enabled = true
      · simp only [hc, if_true]
        rcases hget : cacheGet st.cache
            (get_cache_key env.sha256hex code P.name P.model) st.clock with _ | cached <;>
          simp only [hget]
        · refine countGen_explainMissPath_no_fallback env code cb P _ _ _ retry ?_
          rw [countGen_append, countGen_vev]
          simp [countGen, isGenCallEv]
        · rw [countGen_append, countGen_append, countGen_vev]
          cases cb <;> simp [countGen, isGenCallEv]
      · rw [if_neg hc]
        exact countGen_explainMissPath_no_fallback env code cb P none st _ retry
          (countGen_vev env code vi)

theorem countGen_explainGo_no_fallback (env : Env) (code : String) (pn : Option String)
    (cb vi : Bool) (st : St) (fuel : ℕ) :
    countGen (explainGo env code pn false cb vi st fuel).2.2 ≤ 1 := by
  cases fuel with
  | zero => exact countGen_explainBody_no_fallback env code pn cb vi st _
  | succ n => exact countGen_explainBody_no_fallback env code pn cb vi st _

/-! ## Retry continuation irrelevance without fallback -/

theorem explainMissPath_retry_irrelevant (env : Env) (code : String) (cb : Bool)
    (P : Provider) (key : Option String) (st : St) (ev0 : List Event)
    (r1 r2 : String → String → St → ExplainOut) :
    explainMissPath env code false cb P key st ev0 r1 =
      explainMissPath env code false cb P key st ev0 r2 := by
  rcases hx : P.explain_code { model := P.model, model_provider := P.name, start_time := st.clock }
      cb (st.clock + 1) with ⟨r, mm, gev, c0⟩
  cases r with
  | ok s =>
      rw [explainMissPath_gen_ok_eq env code false cb P key st ev0 r1 s mm gev c0 hx,
        explainMissPath_gen_ok_eq env code false cb P key st ev0 r2 s mm gev c0 hx]
  | error e =>
      rw [explainMissPath_gen_error_eq env code false cb P key st ev0 r1 e mm gev c0 hx,
        explainMissPath_gen_error_eq env code false cb P key st ev0 r2 e mm gev c0 hx]
      simp

theorem explainBody_retry_irrelevant (env : Env) (code : String) (pn : Option String)
    (cb vi : Bool) (st : St) (r1 r2 : String → String → St → ExplainOut) :
    explainBody env code pn false cb vi st r1 = explainBody env code pn false cb vi st r2 := by
  rw [explainBody, explainBody]
  split
  · rfl
  · rw [explainAfterValidation, explainAfterValidation]
    rcases hres : resolveActiveProvider env pn false with e | P
    · simp only [hres]
    · simp only [hres]
      by_cases hc : env.settings.cache_enabled = true
      · simp only [hc, if_true]
        rcases hget : cacheGet st.cache
            (get_cache_key env.sha256hex code P.name P.model) st.clock with _ | cached <;>
          simp only [hget]
        exact explainMissPath_retry_irrelevant env code cb P _ _ _ r1 r2
      · rw [if_neg hc, if_neg hc]
        exact explainMissPath_retry_irrelevant env code cb P none st _ r1 r2

/-- Without fallback the retry budget is never consulted: `explain` equals
the budget-zero run. -/
theorem explainGo_no_fallback_eq (env : Env) (code : String) (pn : Option String)
    (cb vi : Bool) (st : St) :
    explainFn env code pn false cb vi st = explainGo env code pn false cb vi st 0 := by
  rw [explainFn, explainGo, explainGo]
  exact explainBody_retry_irrelevant env code pn cb vi st _ _

/-! ## C1 — exactly-one-retry fallback on generation failure -/

theorem explainFn_miss_reduction (env : Env) (code : String) (pn : Option String)
    (af cb vi : Bool) (st : St) (P : Provider)
    (hv : vi = true → (validateInputCode env code).1.is_valid = true)
    (hres : resolveActiveProvider env pn af = .ok P)
    (hnohit : env.settings.cache_enabled = true →
      cacheGet st.cache (get_cache_key env.sha256hex code P.name P.model) st.clock = none) :
    ∃ (stX : St) (ev0 : List Event),
      stX.cache = st.cache ∧ countGen ev0 = 0 ∧
      explainGo env code pn af cb vi st 1 =
        explainMissPath env code af cb P
          (if env.settings.cache_enabled = true then
            some (get_cache_key env.sha256hex code P.name P.model) else none)
          stX ev0
          (fun _ name st' => explainGo env code (some name) false cb false st' 0) := by
  rw [explainGo, explainBody_of_valid env code pn af cb vi st _ hv]
  by_cases hc : env.settings.cache_enabled = true
  · refine ⟨⟨st.cache, st.clock + 1⟩,
      (if vi then (validateInputCode env code).2 else []) ++
        [Event.cacheRead (get_cache_key env.sha256hex code P.name P.model)], rfl, ?_, ?_⟩
    · rw [countGen_append, countGen_vev]
      simp [countGen, isGenCallEv]
    · rw [explainAfterValidation_miss env code pn af cb st _ _ P hres hc (hnohit hc)]
      rw [if_pos hc]
  · refine ⟨st, (if vi then (validateInputCode env code).2 else []), rfl,
      countGen_vev env code vi, ?_⟩
    rw [explainAfterValidation_nocache env code pn af cb st _ _ P hres (by simpa using hc)]
    rw [if_neg hc]

/-- C1: when the resolved provider's generation raises and `auto_fallback`
is true, `explain` retries the whole call exactly once against the other
registered provider — with `auto_fallback` forced false and
`validate_input` forced false — on the unchanged cache; the full trace
contains exactly one generation attempt before the retry and at most two
in total (so the fallback attempt happens at most once even if it fails
too); if no alternate provider is available, or in the retried call itself
(`auto_fallback = false`), the original exception is propagated to the
caller. -/
theorem explain_generation_failure_fallback (env : Env) (code : String) (pn : Option String)
    (cb vi : Bool) (st : St) (P : Provider) (e : String)
    (hv : vi = true → (validateInputCode env code).1.is_valid = true)
    (hnohit : env.settings.cache_enabled = true →
      cacheGet st.cache (get_cache_key env.sha256hex code P.name P.model) st.clock = none)
    (hgen : genOutcome P = .error e) :
    (resolveActiveProvider env pn true = .ok P →
      (∀ fp, get_fallback_provider env P.name = some fp →
        ∃ (c' : ℚ) (pre : List Event),
          explainFn env code pn true cb vi st =
            ((explainFn env code (some fp.name) false cb false ⟨st.cache, c'⟩).1,
             (explainFn env code (some fp.name) false cb false ⟨st.cache, c'⟩).2.1,
             pre ++ (explainFn env code (some fp.name) false cb false ⟨st.cache, c'⟩).2.2) ∧
          countGen pre = 1 ∧
          countGen (explainFn env code pn true cb vi st).2.2 ≤ 2) ∧
      (get_fallback_provider env P.name = none →
        (explainFn env code pn true cb vi st).1 = .error e)) ∧
    (resolveActiveProvider env pn false = .ok P →
      (explainFn env code pn false cb vi st).1 = .error e) := by
  constructor
  · intro hres
    obtain ⟨stX, ev0, hcacheX, hev0, hred⟩ :=
      explainFn_miss_reduction env code pn true cb vi st P hv hres hnohit
    rcases hx : P.explain_code
        { model := P.model, model_provider := P.name, start_time := stX.clock } cb
        (stX.clock + 1) with ⟨r, mm, gev, c0⟩
    have hr1 : r = .error e := by
      have h := explain_code_fst P
        { model := P.model, model_provider := P.name, start_time := stX.clock } cb (stX.clock + 1)
      rw [hx, hgen] at h
      exact h
    subst hr1
    have hse := explain_code_events P
      { model := P.model, model_provider := P.name, start_time := stX.clock } cb (stX.clock + 1)
    rw [hx] at hse
    have hgev0 : countGen gev = 0 := by
      simp [countGen, (filter_stream_nil gev hse).1]
    have hmiss := explainMissPath_gen_error_eq env code true cb P
      (if env.settings.cache_enabled = true then
        some (get_cache_key env.sha256hex code P.name P.model) else none) stX ev0
      (fun _ name st' => explainGo env code (some name) false cb false st' 0) e mm gev c0 hx
    constructor
    · intro fp hfb
      have hpre : countGen (ev0 ++ [Event.genCall P.name] ++ gev) = 1 := by
        rw [countGen_append, countGen_append, hev0, hgev0]
        simp [countGen, isGenCallEv]
      refine ⟨c0 + 1, ev0 ++ [Event.genCall P.name] ++ gev, ?_, hpre, ?_⟩
      · rw [explainFn, hred, hmiss]
        simp only [hfb, if_true, ite_true]
        rw [hcacheX, explainGo_no_fallback_eq]
      · rw [explainFn, hred, hmiss]
        simp only [hfb, if_true, ite_true]
        rw [countGen_append, hpre]
        have hr := countGen_explainGo_no_fallback env code (some fp.name) cb false
          ⟨stX.cache, c0 + 1⟩ 0
        omega
    · intro hfb
      rw [explainFn, hred, hmiss]
      simp only [hfb, if_true, ite_true]
  · intro hres0
    obtain ⟨stX, ev0, hcacheX, hev0, hred⟩ :=
      explainFn_miss_reduction env code pn false cb vi st P hv hres0 hnohit
    rcases hx : P.explain_code
        { model := P.model, model_provider := P.name, start_time := stX.clock } cb
        (stX.clock + 1) with ⟨r, mm, gev, c0⟩
    have hr1 : r = .error e := by
      have h := explain_code_fst P
        { model := P.model, model_provider := P.name, start_time := stX.clock } cb (stX.clock + 1)
      rw [hx, hgen] at h
      exact h
    subst hr1
    rw [explainFn, hred, explainMissPath_gen_error_eq env code false cb P
      (if env.settings.cache_enabled = true then
        some (get_cache_key env.sha256hex code P.name P.model) else none) stX ev0
      (fun _ name st' => explainGo env code (some name) false cb false st' 0) e mm gev c0 hx]
    simp

/-- C1 (witness): Gemini configured but failing, Ollama serving — the
whole call makes at most two generation attempts; with no fallback
available, and in a no-fallback call, the original classified exception is
propagated. -/
theorem explain_generation_failure_fallback_witness :
    countGen (explainFn failEnv "def add(a, b): return a + b" none true false false
      ⟨fun _ => none, 0⟩).2.2 ≤ 2 ∧
    (explainFn failEnvNoFb "def add(a, b): return a + b" none true false false
      ⟨fun _ => none, 0⟩).1 = .error "Gemini API error: boom 500" ∧
    (explainFn failEnv "def add(a, b): return a + b" none false false false
      ⟨fun _ => none, 0⟩).1 = .error "Gemini API error: boom 500" := by
  have h1 := explain_generation_failure_fallback failEnv "def add(a, b): return a + b" none
    false false ⟨fun _ => none, 0⟩ failEnv.gemini "Gemini API error: boom 500"
    (fun hb => nomatch hb) (fun hb => nomatch hb) (by rfl)
  have h2 := explain_generation_failure_fallback failEnvNoFb "def add(a, b): return a + b" none
    false false ⟨fun _ => none, 0⟩ failEnvNoFb.gemini "Gemini API error: boom 500"
    (fun hb => nomatch hb) (fun hb => nomatch hb) (by rfl)
  refine ⟨?_, ?_, ?_⟩
  · obtain ⟨c', pre, heq, hpre, hbound⟩ := (h1.1 rfl).1 failEnv.ollama rfl
    exact hbound
  · exact (h2.1 rfl).2 rfl
  · exact h1.2 rfl

/-! ## C6 — the cache is written only after a successful generation -/

theorem getProviderByName_cases (env : Env) (n : String) (p : Provider)
    (h : env.getProviderByName n = some p) : p = env.gemini ∨ p = env.ollama := by
  rw [Env.getProviderByName] at h
  split at h
  · exact Or.inl (by injection h; simp_all)
  · split at h
    · exact Or.inr (by injection h; simp_all)
    · cases h

theorem get_provider_ok_cases (env : Env) (pn : Option String) (P : Provider)
    (h : get_provider env pn = .ok P) : P = env.gemini ∨ P = env.ollama := by
  rw [get_provider] at h
  rcases hq : env.getProviderByName (resolveName env pn) with _ | p
  · simp only [hq] at h
    cases h
  · simp only [hq] at h
    by_cases ha : p.is_available = true
    · rw [if_pos ha] at h
      injection h with h
      exact h ▸ getProviderByName_cases env _ p hq
    · rw [if_neg ha] at h
      cases h

theorem get_fallback_provider_cases (env : Env) (f : String) (p : Provider)
    (h : get_fallback_provider env f = some p) : p = env.gemini ∨ p = env.ollama :=
  getProviderByName_cases env _ p ((get_fallback_provider_iff env f p).mp h).1

theorem resolveActiveProvider_ok_cases (env : Env) (pn : Option String) (af : Bool)
    (P : Provider) (h : resolveActiveProvider env pn af = .ok P) :
    P = env.gemini ∨ P = env.ollama := by
  rw [resolveActiveProvider] at h
  rcases hg : get_provider env pn with e | p
  · simp only [hg] at h
    cases af with
    | false => cases h
    | true =>
        rw [if_pos rfl] at h
        rcases hf : get_fallback_provider env (resolveName env pn) with _ | q
        · simp only [hf] at h
          cases h
        · simp only [hf] at h
          injection h with h
          exact h ▸ get_fallback_provider_cases env _ q hf
  · simp only [hg] at h
    injection h with h
    exact h ▸ get_provider_ok_cases env pn p hg

theorem cacheKeyInput_gemini_ne_ollama (code m1 m2 : String) :
    cacheKeyInput code "gemini" m1 ≠ cacheKeyInput code "ollama" m2 := by
  intro h
  have hd := congrArg String.data h
  simp only [cacheKeyInput, String.data_append, List.append_assoc] at hd
  have := List.append_cancel_left hd
  simp at this

/-- When the fallback provider has been selected, re-resolving it by name
(as the retried call does) yields it again. -/
theorem get_provider_of_fallback (env : Env) (f : String) (fp : Provider)
    (h : get_fallback_provider env f = some fp) :
    get_provider env (some fp.name) = .ok fp := by
  have hmem := get_fallback_provider_cases env f fp h
  have hav := ((get_fallback_provider_iff env f fp).mp h).2
  rcases hmem with rfl | rfl
  · rw [get_provider]
    have h1 : resolveName env (some (env.gemini.name)) = "gemini" := rfl
    rw [h1]
    simp only [getProviderByName_gemini_e, hav]
    rfl
  · rw [get_provider]
    have h1 : resolveName env (some (env.ollama.name)) = "ollama" := rfl
    rw [h1]
    simp only [getProviderByName_ollama_e, hav]
    rfl

theorem explainMissPath_no_fallback_cache_outside (env : Env) (code : String) (cb : Bool)
    (Q : Provider) (key : Option String) (st : St) (ev0 : List Event)
    (retry : String → String → St → ExplainOut) (k : String)
    (hkey : ∀ kk, key = some kk → k ≠ kk) :
    (explainMissPath env code false cb Q key st ev0 retry).2.1.cache k = st.cache k := by
  rcases hx : Q.explain_code { model := Q.model, model_provider := Q.name, start_time := st.clock }
      cb (st.clock + 1) with ⟨r, mm, gev, c0⟩
  cases r with
  | ok s =>
      rw [explainMissPath_gen_ok_eq env code false cb Q key st ev0 retry s mm gev c0 hx]
      rcases key with _ | kk
      · rfl
      · by_cases hkk : kk = ""
        · subst hkk
          simp
        · simp only [hkk, ne_eq, not_false_eq_true, if_true, ite_true]
          simp [cacheSet, hkey kk rfl]
  | error e =>
      rw [explainMissPath_gen_error_eq env code false cb Q key st ev0 retry e mm gev c0 hx]
      simp

theorem explainBody_no_fallback_cache_outside (env : Env) (code : String) (pn : Option String)
    (cb vi : Bool) (st : St) (retry : String → String → St → ExplainOut) (k : String)
    (hk : ∀ Q, resolveActiveProvider env pn false = .ok Q →
      k ≠ get_cache_key env.sha256hex code Q.name Q.model) :
    (explainBody env code pn false cb vi st retry).2.1.cache k = st.cache k := by
  rw [explainBody]
  split
  · rfl
  · rw [explainAfterValidation]
    rcases hres : resolveActiveProvider env pn false with e | Q
    · simp only [hres]
    · simp only [hres]
      have hkQ := hk Q hres
      by_cases hc : env.settings.cache_enabled = true
      · simp only [hc, if_true]
        rcases hget : cacheGet st.cache
            (get_cache_key env.sha256hex code Q.name Q.model) st.clock with _ | cached <;>
          simp only [hget]
        exact explainMissPath_no_fallback_cache_outside env code cb Q _ _ _ retry k
          (fun kk hkk => by injection hkk with hkk; exact hkk ▸ hkQ)
      · rw [if_neg hc]
        exact explainMissPath_no_fallback_cache_outside env code cb Q none st _ retry k
          (fun kk hkk => by cases hkk)

theorem explainMissPath_error_cache (env : Env) (code : String) (af cb : Bool) (Q : Provider)
    (key : Option String) (st : St) (ev0 : List Event)
    (retry : String → String → St → ExplainOut)
    (hretry : ∀ e n s e', (retry e n s).1 = .error e' → (retry e n s).2.1.cache = s.cache) :
    ∀ e', (explainMissPath env code af cb Q key st ev0 retry).1 = .error e' →
      (explainMissPath env code af cb Q key st ev0 retry).2.1.cache = st.cache := by
  intro e' herr
  rcases hx : Q.explain_code { model := Q.model, model_provider := Q.name, start_time := st.clock }
      cb (st.clock + 1) with ⟨r, mm, gev, c0⟩
  cases r with
  | ok s =>
      rw [explainMissPath_gen_ok_eq env code af cb Q key st ev0 retry s mm gev c0 hx] at herr ⊢
      rcases key with _ | kk
      · cases herr
      · by_cases hkk : kk = ""
        · subst hkk
          simp at herr
        · simp only [hkk, ne_eq, not_false_eq_true, if_true, ite_true] at herr
          cases herr
  | error e =>
      rw [explainMissPath_gen_error_eq env code af cb Q key st ev0 retry e mm gev c0 hx] at herr ⊢
      cases af with
      | false => rfl
      | true =>
          simp only [if_true, ite_true] at herr ⊢
          rcases hf : get_fallback_provider env Q.name with _ | fp <;> simp only [hf] at herr ⊢
          exact hretry e fp.name ⟨st.cache, c0 + 1⟩ e' herr

theorem explainBody_error_cache (env : Env) (code : String) (pn : Option String)
    (af cb vi : Bool) (st : St) (retry : String → String → St → ExplainOut)
    (hretry : ∀ e n s e', (retry e n s).1 = .error e' → (retry e n s).2.1.cache = s.cache) :
    ∀ e', (explainBody env code pn af cb vi st retry).1 = .error e' →
      (explainBody env code pn af cb vi st retry).2.1.cache = st.cache := by
  intro e' herr
  rw [explainBody] at herr ⊢
  split at herr
  · rename_i hguard
    rw [if_pos hguard]
  · rename_i hguard
    rw [if_neg hguard]
    rw [explainAfterValidation] at herr ⊢
    rcases hres : resolveActiveProvider env pn af with e | Q
    · simp only [hres] at herr ⊢
    · simp only [hres] at herr ⊢
      by_cases hc : env.settings.cache_enabled = true
      · simp only [hc, if_true] at herr ⊢
        rcases hget : cacheGet st.cache
            (get_cache_key env.sha256hex code Q.name Q.model) st.clock with _ | cached <;>
          simp only [hget] at herr ⊢
        exact explainMissPath_error_cache env code af cb Q _ _ _ retry hretry e' herr
      · rw [if_neg hc] at herr ⊢
        exact explainMissPath_error_cache env code af cb Q none st _ retry hretry e' herr

theorem explainGo_error_cache (env : Env) (code : String) :
    ∀ (fuel : ℕ) (pn : Option String) (af cb vi : Bool) (st : St) (e' : String),
      (explainGo env code pn af cb vi st fuel).1 = .error e' →
      (explainGo env code pn af cb vi st fuel).2.1.cache = st.cache := by
  intro fuel
  induction fuel with
  | zero =>
      intro pn af cb vi st e' herr
      rw [explainGo] at herr ⊢
      exact explainBody_error_cache env code pn af cb vi st _
        (fun _ _ _ _ _ => rfl) e' herr
  | succ n ih =>
      intro pn af cb vi st e' herr
      rw [explainGo] at herr ⊢
      exact explainBody_error_cache env code pn af cb vi st _
        (fun e nm s e2 h2 => ih (some nm) false cb false s e2 h2) e' herr

/-- C6: the cache is written only after a successful generation —
(1) whenever `explain` propagates an exception (including a generation
interrupted after some fragments, and a failed fallback), the cache is
left exactly as it was; (2) a request rejected by input validation returns
before touching the cache and its trace carries no cache write; (3) when
the primary provider's generation fails and the fallback succeeds, no
entry is ever written for the primary's computed key (assuming the digest
injective; only the fallback's own key can be written). -/
theorem cache_write_only_on_success (env : Env) :
    (∀ (code : String) (pn : Option String) (af cb vi : Bool) (st : St) (e : String),
      (explainFn env code pn af cb vi st).1 = .error e →
      (explainFn env code pn af cb vi st).2.1.cache = st.cache) ∧
    (∀ (code : String) (pn : Option String) (af cb : Bool) (st : St),
      (validateInputCode env code).1.is_valid = false →
      explainFn env code pn af cb true st =
        (.error ("Input validation failed: " ++ (validateInputCode env code).1.reason), st,
         (validateInputCode env code).2) ∧
      (validateInputCode env code).2.filter isCacheWriteEv = []) ∧
    (∀ (code : String) (pn : Option String) (cb vi : Bool) (st : St) (P fp : Provider)
        (e : String),
      Function.Injective env.sha256hex →
      (vi = true → (validateInputCode env code).1.is_valid = true) →
      resolveActiveProvider env pn true = .ok P →
      (env.settings.cache_enabled = true →
        cacheGet st.cache (get_cache_key env.sha256hex code P.name P.model) st.clock = none) →
      genOutcome P = .error e →
      get_fallback_provider env P.name = some fp →
      (explainFn env code pn true cb vi st).2.1.cache
          (get_cache_key env.sha256hex code P.name P.model) =
        st.cache (get_cache_key env.sha256hex code P.name P.model)) := by
  refine ⟨?_, ?_, ?_⟩
  · intro code pn af cb vi st e h
    rw [explainFn] at h ⊢
    exact explainGo_error_cache env code 1 pn af cb vi st e h
  · intro code pn af cb st hinv
    constructor
    · rw [explainFn, explainGo, explainBody]
      rw [if_pos ⟨rfl, by simp [hinv]⟩]
    · exact (filter_structured_nil _ (validateInputCode_events_structured env code)).2.2
  · intro code pn cb vi st P fp e hinj hv hres hnohit hgen hfb
    obtain ⟨stX, ev0, hcacheX, hev0, hred⟩ :=
      explainFn_miss_reduction env code pn true cb vi st P hv hres hnohit
    rcases hx : P.explain_code
        { model := P.model, model_provider := P.name, start_time := stX.clock } cb
        (stX.clock + 1) with ⟨r, mm, gev, c0⟩
    have hr1 : r = .error e := by
      have h := explain_code_fst P
        { model := P.model, model_provider := P.name, start_time := stX.clock } cb (stX.clock + 1)
      rw [hx, hgen] at h
      exact h
    subst hr1
    rw [explainFn, hred, explainMissPath_gen_error_eq env code true cb P
      (if env.settings.cache_enabled = true then
        some (get_cache_key env.sha256hex code P.name P.model) else none) stX ev0
      (fun _ name st' => explainGo env code (some name) false cb false st' 0) e mm gev c0 hx]
    simp only [hfb, if_true, ite_true]
    have hgpfb := get_provider_of_fallback env P.name fp hfb
    have hresfb : resolveActiveProvider env (some fp.name) false = .ok fp := by
      rw [resolveActiveProvider, hgpfb]
    have hk : ∀ Q, resolveActiveProvider env (some fp.name) false = .ok Q →
        get_cache_key env.sha256hex code P.name P.model ≠
          get_cache_key env.sha256hex code Q.name Q.model := by
      intro Q hQ
      rw [hresfb] at hQ
      injection hQ with hQ
      subst hQ
      rcases resolveActiveProvider_ok_cases env pn true P hres with rfl | rfl
      · have h2 : env.getProviderByName "ollama" = some fp :=
          ((get_fallback_provider_iff env _ fp).mp hfb).1
        rw [getProviderByName_ollama_e] at h2
        injection h2 with h2
        subst h2
        intro hkeq
        exact cacheKeyInput_gemini_ne_ollama code _ _ (hinj hkeq)
      · have h2 : env.getProviderByName "gemini" = some fp :=
          ((get_fallback_provider_iff env _ fp).mp hfb).1
        rw [getProviderByName_gemini_e] at h2
        injection h2 with h2
        subst h2
        intro hkeq
        exact (cacheKeyInput_gemini_ne_ollama code _ _ (hinj hkeq.symm)).elim
    show (explainGo env code (some fp.name) false cb false ⟨stX.cache, c0 + 1⟩ 0).2.1.cache _ = _
    rw [explainGo]
    exact (explainBody_no_fallback_cache_outside env code (some fp.name) cb false
      ⟨stX.cache, c0 + 1⟩ _ _ hk).trans (by rw [hcacheX])

/-- C6 (witness): a double failure leaves the empty cache empty, a
validation-rejected request returns before the cache with no write event,
and after a failed Gemini attempt with a successful Ollama fallback the
Gemini key is still absent. -/
theorem cache_write_only_on_success_witness :
    (explainFn failEnvNoFb "def add(a, b): return a + b" none true false false
      ⟨fun _ => none, 0⟩).2.1.cache = (fun _ => none) ∧
    explainFn baseEnv "x" none true false true ⟨fun _ => none, 0⟩ =
      (.error "Input validation failed: Code is too short (minimum 10 characters)",
       ⟨fun _ => none, 0⟩, []) ∧
    (explainFn fbEnv "def add(a, b): return a + b" none true false false
      ⟨fun _ => none, 0⟩).2.1.cache
        (cacheKeyInput "def add(a, b): return a + b" "gemini" "gemini-2.5-flash") = none := by
  refine ⟨?_, ?_, ?_⟩
  · exact (cache_write_only_on_success failEnvNoFb).1 "def add(a, b): return a + b" none
      true false false ⟨fun _ => none, 0⟩ "Gemini API error: boom 500" (by rfl)
  · have h := ((cache_write_only_on_success baseEnv).2.1 "x" none true false
      ⟨fun _ => none, 0⟩ rfl).1
    rw [h]
    rfl
  · exact (cache_write_only_on_success fbEnv).2.2 "def add(a, b): return a + b" none
      false false ⟨fun _ => none, 0⟩ fbEnv.gemini fbEnv.ollama "Gemini API error: boom 500"
      (fun _ _ hab => hab) (fun hb => nomatch hb) rfl (fun _ => rfl) (by rfl) rfl

end CodeInsight
